import Mathlib

/-!
# Revenue-share ledger of `functions/index.js`

A shallow embedding of the pricing ladder, the checkout quote and the Stripe
webhook settlement of `src/functions/index.js`, followed by theorems about them.

Conventions of the embedding.

* JavaScript numbers that count shares or cents are `Int` (the values in play
  are integers far below 2^53).
* `parseInt(x)` is taken as already evaluated: its result is an `Option Int`,
  `none` standing for `NaN`.
* A metadata string that JavaScript treats as falsy (`undefined` or `""`) is the
  empty string.
* Firestore is a record of its four collections.  `apps_revenue` maps a document
  id to its document, `shares` is a list of (document id, document) pairs because
  its ids are chosen by the program, `transactions` and `payment_issues` are
  lists because their ids are fresh (`doc()`).
* Server timestamps (`createdAt`, `lastPurchaseAt`, `purchasedAt`) are not stored
  in the embedding.  `Date.now()` is an input of the webhook handler.
-/

namespace TheRobots

/-! ## Pricing tiers (index.js, lines 27-51) -/

/-- One row of `PRICING_TIERS`. -/
structure Tier where
  minShare : Int
  maxShare : Int
  pricePerShare : Int
  deriving DecidableEq, Repr

/-- The constant `PRICING_TIERS` (lines 27-33), prices in cents. -/
def PRICING_TIERS : List Tier :=
  [ { minShare := 1, maxShare := 10, pricePerShare := 1000 },
    { minShare := 11, maxShare := 20, pricePerShare := 2500 },
    { minShare := 21, maxShare := 30, pricePerShare := 5000 },
    { minShare := 31, maxShare := 40, pricePerShare := 10000 },
    { minShare := 41, maxShare := 49, pricePerShare := 20000 } ]

/-- The constant `MAX_SHARES` (line 35). -/
def MAX_SHARES : Int := 49

/-- The constant `FULL_APP_PRICE` (line 36), in cents. -/
def FULL_APP_PRICE : Int := 100000

/-- The function `getCurrentSharePrice` (lines 43-51): the price of the first tier
whose range holds `sharesSold + 1`, `none` (JavaScript `null`) when no tier does. -/
def getCurrentSharePrice (sharesSold : Int) : Option Int :=
  let nextShare := sharesSold + 1
  (PRICING_TIERS.find? (fun tier =>
    decide (nextShare ≥ tier.minShare) && decide (nextShare ≤ tier.maxShare))).map
    (fun tier => tier.pricePerShare)

/-- The object returned by `getTierInfo` (lines 63-68). -/
structure TierInfo where
  tierNumber : Int
  pricePerShare : Int
  sharesRemainingInTier : Int
  totalTiers : Int
  deriving DecidableEq, Repr

/-- The `for` loop of `getTierInfo` (lines 60-70) from index `i` on, `tiers`
being the rows of `PRICING_TIERS` not yet visited. -/
def getTierInfoFrom (nextShare sharesSold : Int) : Nat → List Tier → Option TierInfo
  | _, [] => none
  | i, tier :: rest =>
    if nextShare ≥ tier.minShare ∧ nextShare ≤ tier.maxShare then
      some { tierNumber := (i : Int) + 1, pricePerShare := tier.pricePerShare,
             sharesRemainingInTier := tier.maxShare - sharesSold,
             totalTiers := (PRICING_TIERS.length : Int) }
    else getTierInfoFrom nextShare sharesSold (i + 1) rest

/-- The function `getTierInfo` (lines 58-72). -/
def getTierInfo (sharesSold : Int) : Option TierInfo :=
  let nextShare := sharesSold + 1
  getTierInfoFrom nextShare sharesSold 0 PRICING_TIERS

/-! ## Checkout quote (index.js, lines 210-280) -/

/-- The expression `parseInt(x) || 1` (lines 247 and 378): `NaN` and `0` are
falsy and give `1`, every other integer is kept. -/
def parseIntOr1 (parsed : Option Int) : Int :=
  match parsed with
  | none => 1
  | some n => if n = 0 then 1 else n

/-- A document of the `apps_revenue` collection (timestamps left out). -/
structure AppDoc where
  totalSharesSold : Int
  totalRevenue : Int
  revenueShareActive : Bool
  isFullyOwned : Bool
  deriving DecidableEq, Repr

/-- The default record used when the document does not exist
(lines 216-221 and 387). -/
def defaultAppData : AppDoc :=
  { totalSharesSold := 0, totalRevenue := 0, revenueShareActive := false,
    isFullyOwned := false }

/-- The `appData` the code works with (lines 214-224, 385-390): the stored
document, or the default record when there is none. -/
def appDataOf (appDoc : Option AppDoc) : AppDoc :=
  match appDoc with
  | none => defaultAppData
  | some d => d

/-- The errors thrown inside the checkout transaction, one per message. -/
inductive QuoteError where
  /-- "This app has already been fully purchased" (line 227). -/
  | fullyOwned
  /-- "Cannot purchase full app - revenue shares have already been sold" (line 235). -/
  | sharesAlreadySold
  /-- "No shares available for this app" (line 252). -/
  | noSharesAvailable
  /-- "Only i shares available" (line 263). -/
  | onlyAvailable (i : Nat)
  deriving DecidableEq, Repr

/-- One entry of `priceBreakdown` (line 266). -/
structure PriceLine where
  share : Int
  price : Int
  deriving DecidableEq, Repr

/-- The object returned by the checkout transaction (lines 238-243 and 270-278),
without its `description` text.  A full purchase has no `priceBreakdown`. -/
structure QuoteResult where
  type : String
  price : Int
  shares : Int
  priceBreakdown : Option (List PriceLine)
  deriving DecidableEq, Repr

/-- The `for` loop of lines 260-268.  `remaining` is the number of iterations
still to run, `i` the loop counter; the loop state is `totalPrice`,
`currentSold` and `priceBreakdown`.  `!price` holds for `null` and for `0`. -/
def priceWalk : Nat → Nat → Int → Int → List PriceLine →
    Except QuoteError (Int × List PriceLine)
  | 0, _, totalPrice, _, priceBreakdown => .ok (totalPrice, priceBreakdown)
  | remaining + 1, i, totalPrice, currentSold, priceBreakdown =>
    match getCurrentSharePrice currentSold with
    | none => .error (.onlyAvailable i)
    | some price =>
      if price = 0 then .error (.onlyAvailable i)
      else priceWalk remaining (i + 1) (totalPrice + price) (currentSold + 1)
        (priceBreakdown ++ [{ share := currentSold + 1, price := price }])

/-- The clamp of lines 246-249:
`Math.min(Math.max(parseInt(quantity) || 1, 1), MAX_SHARES - sharesSold)`. -/
def clampShares (sharesSold : Int) (quantity : Option Int) : Int :=
  min (max (parseIntOr1 quantity) 1) (MAX_SHARES - sharesSold)

/-- The individual share branch of the checkout transaction (lines 245-279). -/
def quoteShares (sharesSold : Int) (quantity : Option Int) :
    Except QuoteError QuoteResult :=
  let numShares := clampShares sharesSold quantity
  if numShares ≤ 0 then .error .noSharesAvailable
  else
    match priceWalk numShares.toNat 0 0 sharesSold [] with
    | .error err => .error err
    | .ok (totalPrice, priceBreakdown) =>
      .ok { type := "share", price := totalPrice, shares := numShares,
            priceBreakdown := some priceBreakdown }

/-- The body of the checkout transaction (lines 210-280): `appDoc` is the
document read for the app, `purchaseType` and `quantity` come from the request
body. -/
def createCheckoutQuote (appDoc : Option AppDoc) (purchaseType : String)
    (quantity : Option Int) : Except QuoteError QuoteResult :=
  let appData := appDataOf appDoc
  if appData.isFullyOwned then .error .fullyOwned
  else
    let sharesSold := appData.totalSharesSold
    if purchaseType = "full" then
      if sharesSold > 0 then .error .sharesAlreadySold
      else .ok { type := "full", price := FULL_APP_PRICE, shares := MAX_SHARES,
                 priceBreakdown := none }
    else quoteShares sharesSold quantity

/-! ## Stripe webhook settlement (index.js, lines 366-468) -/

/-- A document of the `shares` collection (lines 418-429). -/
structure ShareDoc where
  appSlug : String
  appName : String
  userId : String
  userEmail : String
  sharesOwned : Int
  totalPaid : Int
  purchaseType : String
  stripeSessionId : String
  stripePaymentIntentId : Option String
  deriving DecidableEq, Repr

/-- A document of the `transactions` collection (lines 445-456). -/
structure TransactionDoc where
  type : String
  appSlug : String
  userId : String
  userEmail : String
  sharesCount : Int
  amount : Int
  currency : String
  stripeSessionId : String
  stripePaymentIntentId : Option String
  deriving DecidableEq, Repr

/-- A document of the `payment_issues` collection (lines 399-410). -/
structure PaymentIssue where
  type : String
  appSlug : String
  userId : String
  sessionId : String
  paymentIntentId : Option String
  attemptedShares : Int
  currentSharesSold : Int
  amountPaid : Int
  resolved : Bool
  deriving DecidableEq, Repr

/-- The Firestore database: its four collections. -/
structure Store where
  apps_revenue : String → Option AppDoc
  shares : List (String × ShareDoc)
  transactions : List TransactionDoc
  payment_issues : List PaymentIssue

/-- The database with no document at all. -/
def Store.empty : Store :=
  { apps_revenue := fun _ => none, shares := [], transactions := [],
    payment_issues := [] }

/-- The call `collection.doc(id).set(doc)` on a collection with program-chosen
ids: the document stored under `id` is replaced, or `doc` is added when `id` is
new. -/
def setDoc {α : Type} (id : String) (doc : α) : List (String × α) → List (String × α)
  | [] => [(id, doc)]
  | (k, d) :: rest => if k = id then (id, doc) :: rest else (k, d) :: setDoc id doc rest

/-- The metadata of a checkout session as the webhook reads it (line 377);
`sharesCount` is the result of `parseInt(sharesCount)`, and `purchaseType` is
taken as present. -/
structure Metadata where
  appSlug : String
  appName : String
  userId : String
  userEmail : String
  purchaseType : String
  sharesCount : Option Int
  deriving DecidableEq, Repr

/-- The checkout session object `event.data.object` (line 368). -/
structure Session where
  id : String
  payment_intent : Option String
  amount_total : Int
  currency : String
  metadata : Option Metadata
  deriving DecidableEq, Repr

/-- A verified Stripe event (line 355). -/
structure Event where
  type : String
  session : Session
  deriving DecidableEq, Repr

/-- Which path of the webhook handler an event took. -/
inductive Outcome where
  /-- The event is not `checkout.session.completed` (line 367): nothing is done. -/
  | ignored
  /-- Metadata, `appSlug` or `userId` is missing (lines 371-375): status 400. -/
  | rejected
  /-- The oversold branch (lines 394-412): a `payment_issues` document is written. -/
  | quarantined
  /-- The purchase is recorded (lines 414-456). -/
  | committed
  deriving DecidableEq, Repr

/-- The value `numShares` of line 378. -/
def numSharesOf (metadata : Metadata) : Int := parseIntOr1 metadata.sharesCount

/-- The share document id of line 415, `now` being `Date.now()`. -/
def shareDocId (appSlug userId : String) (now : Nat) : String :=
  appSlug ++ "_" ++ userId ++ "_" ++ toString now

/-- The string `a || b` for strings: `b` when `a` is empty. -/
def strOr (a b : String) : String := if a = "" then b else a

/-- The document written to `apps_revenue` with `merge: true` (lines 433-442):
an existing document keeps its other fields, a new one gets the defaults. -/
def mergeAppDoc (appDoc : Option AppDoc) (totalSharesSold : Int) (isFullyOwned : Bool) :
    AppDoc :=
  match appDoc with
  | some d => { d with totalSharesSold := totalSharesSold, isFullyOwned := isFullyOwned }
  | none => { totalSharesSold := totalSharesSold, isFullyOwned := isFullyOwned,
              totalRevenue := 0, revenueShareActive := false }

/-- The `payment_issues` document of lines 399-410. -/
def paymentIssueOf (session : Session) (metadata : Metadata) (currentSold : Int) :
    PaymentIssue :=
  { type := "oversold", appSlug := metadata.appSlug, userId := metadata.userId,
    sessionId := session.id, paymentIntentId := session.payment_intent,
    attemptedShares := numSharesOf metadata, currentSharesSold := currentSold,
    amountPaid := session.amount_total, resolved := false }

/-- The `shares` document of lines 418-429. -/
def shareDocOf (session : Session) (metadata : Metadata) : ShareDoc :=
  { appSlug := metadata.appSlug, appName := strOr metadata.appName metadata.appSlug,
    userId := metadata.userId, userEmail := strOr metadata.userEmail "",
    sharesOwned := numSharesOf metadata, totalPaid := session.amount_total,
    purchaseType := metadata.purchaseType, stripeSessionId := session.id,
    stripePaymentIntentId := session.payment_intent }

/-- The `transactions` document of lines 445-456. -/
def transactionDocOf (session : Session) (metadata : Metadata) : TransactionDoc :=
  { type := if metadata.purchaseType = "full" then "full_purchase" else "share_purchase",
    appSlug := metadata.appSlug, userId := metadata.userId,
    userEmail := strOr metadata.userEmail "", sharesCount := numSharesOf metadata,
    amount := session.amount_total, currency := session.currency,
    stripeSessionId := session.id, stripePaymentIntentId := session.payment_intent }

/-- The body of the settlement transaction (lines 381-457), applied atomically. -/
def settleTransaction (db : Store) (now : Nat) (session : Session) (metadata : Metadata) :
    Store × Outcome :=
  let appSlug := metadata.appSlug
  let userId := metadata.userId
  let numShares := numSharesOf metadata
  let appDoc := db.apps_revenue appSlug
  let appData := appDataOf appDoc
  let currentSold := appData.totalSharesSold
  if currentSold + numShares > MAX_SHARES then
    ({ db with
        payment_issues :=
          db.payment_issues ++ [paymentIssueOf session metadata currentSold] },
     .quarantined)
  else
    let isFullPurchase : Bool := decide (metadata.purchaseType = "full")
    ({ db with
        shares := setDoc (shareDocId appSlug userId now) (shareDocOf session metadata)
          db.shares
        apps_revenue := fun slug =>
          if slug = appSlug then
            some (mergeAppDoc appDoc (currentSold + numShares) isFullPurchase)
          else db.apps_revenue slug
        transactions := db.transactions ++ [transactionDocOf session metadata] },
     .committed)

/-- The webhook handler from the verified event on (lines 366-467). -/
def handleStripeWebhook (db : Store) (now : Nat) (event : Event) : Store × Outcome :=
  if event.type = "checkout.session.completed" then
    match event.session.metadata with
    | none => (db, .rejected)
    | some metadata =>
      if metadata.appSlug = "" ∨ metadata.userId = "" then (db, .rejected)
      else settleTransaction db now event.session metadata
  else (db, .ignored)

/-- A delivery to the webhook: the event and the value of `Date.now()` when its
transaction runs. -/
abbrev Delivery := Nat × Event

/-- The database after a sequence of deliveries, handled one after the other. -/
def runWebhooks (db : Store) (deliveries : List Delivery) : Store :=
  deliveries.foldl (fun acc d => (handleStripeWebhook acc d.1 d.2).1) db

/-- The `totalSharesSold` the code reads for `appSlug` (line 393). -/
def currentSoldOf (db : Store) (appSlug : String) : Int :=
  (appDataOf (db.apps_revenue appSlug)).totalSharesSold

/-- The `isFullyOwned` the code reads for `appSlug` (line 226). -/
def isFullyOwnedOf (db : Store) (appSlug : String) : Bool :=
  (appDataOf (db.apps_revenue appSlug)).isFullyOwned

/-- The `shares` documents of an app. -/
def sharesOfApp (db : Store) (appSlug : String) : List ShareDoc :=
  (db.shares.map (fun kd => kd.2)).filter (fun d => decide (d.appSlug = appSlug))

/-- The `transactions` documents of an app. -/
def transactionsOfApp (db : Store) (appSlug : String) : List TransactionDoc :=
  db.transactions.filter (fun t => decide (t.appSlug = appSlug))

/-- The `payment_issues` documents of an app. -/
def issuesOfApp (db : Store) (appSlug : String) : List PaymentIssue :=
  db.payment_issues.filter (fun q => decide (q.appSlug = appSlug))

/-! ## Share information endpoint (index.js, lines 94-165) -/

/-- The JSON answer of `getAppShareInfo` (lines 139-159), without the display
strings (`currentPriceDisplay`, `pricingTiers`, `fullAppPriceDisplay`). -/
structure ShareInfo where
  appSlug : String
  totalSharesSold : Int
  sharesRemaining : Int
  maxShares : Int
  currentPricePerShare : Option Int
  tierInfo : Option TierInfo
  fullAppPurchaseAvailable : Bool
  fullAppPrice : Int
  isFullyOwned : Bool
  revenueShareActive : Bool
  totalRevenue : Int
  holderCount : Nat
  deriving DecidableEq, Repr

/-- The handler `getAppShareInfo` (lines 97-159): the database afterwards and
the answer, `none` standing for the status 400 of a missing `appSlug`. A missing
`apps_revenue` document is created with the default record (lines 109-119). -/
def getAppShareInfo (db : Store) (appSlug : String) : Store × Option ShareInfo :=
  if appSlug = "" then (db, none)
  else
    let appDoc := db.apps_revenue appSlug
    let db1 : Store :=
      match appDoc with
      | none =>
        { db with
          apps_revenue := fun slug =>
            if slug = appSlug then some defaultAppData else db.apps_revenue slug }
      | some _ => db
    let appData := appDataOf appDoc
    let sharesSold := appData.totalSharesSold
    let sharesRemaining := MAX_SHARES - sharesSold
    let tierInfo := getTierInfo sharesSold
    let currentPrice := getCurrentSharePrice sharesSold
    let uniqueHolders := ((sharesOfApp db1 appSlug).map (fun d => d.userId)).dedup
    (db1,
     some { appSlug := appSlug, totalSharesSold := sharesSold,
            sharesRemaining := sharesRemaining, maxShares := MAX_SHARES,
            currentPricePerShare := currentPrice, tierInfo := tierInfo,
            fullAppPurchaseAvailable := decide (sharesSold = 0) && !appData.isFullyOwned,
            fullAppPrice := FULL_APP_PRICE, isFullyOwned := appData.isFullyOwned,
            revenueShareActive := appData.revenueShareActive,
            totalRevenue := appData.totalRevenue,
            holderCount := uniqueHolders.length })

/-- Whether every committed delivery of the sequence writes its share document
under an id that no document of `shares` has at that moment. -/
def freshShareIds : Store → List Delivery → Bool
  | _, [] => true
  | db, d :: rest =>
    (match (handleStripeWebhook db d.1 d.2).2, d.2.session.metadata with
      | .committed, some metadata =>
        !(db.shares.any (fun kd =>
          decide (kd.1 = shareDocId metadata.appSlug metadata.userId d.1)))
      | _, _ => true) &&
    freshShareIds (handleStripeWebhook db d.1 d.2).1 rest

/-- A settlement event with metadata `metadata`: a `checkout.session.completed`
event that passes the metadata check of line 371. -/
def isSettlementFor (event : Event) (metadata : Metadata) : Prop :=
  event.type = "checkout.session.completed" ∧ event.session.metadata = some metadata ∧
    metadata.appSlug ≠ "" ∧ metadata.userId ≠ ""

/-- A sample settlement event: user `userId` buys `n` shares of `appSlug`. -/
def sampleEvent (sessionId appSlug userId purchaseType : String) (n amount : Int) : Event :=
  { type := "checkout.session.completed",
    session :=
      { id := sessionId, payment_intent := some ("pi_" ++ sessionId),
        amount_total := amount, currency := "usd",
        metadata := some
          { appSlug := appSlug, appName := appSlug, userId := userId,
            userEmail := "", purchaseType := purchaseType, sharesCount := some n } } }

/-- A sample database: one `apps_revenue` document, `doc`, stored for `appSlug`,
and nothing else. -/
def sampleStore (appSlug : String) (doc : AppDoc) : Store :=
  { Store.empty with
    apps_revenue := fun slug => if slug = appSlug then some doc else none }

/-! ## Shared lemmas on the settlement step -/

theorem merge_sold (appDoc : Option AppDoc) (t : Int) (b : Bool) :
    (mergeAppDoc appDoc t b).totalSharesSold = t := by
  cases appDoc <;> rfl

theorem merge_owned (appDoc : Option AppDoc) (t : Int) (b : Bool) :
    (mergeAppDoc appDoc t b).isFullyOwned = b := by
  cases appDoc <;> rfl

/-- The store after the oversold branch: only `payment_issues` changes. -/
theorem settle_oversold (db : Store) (now : Nat) (session : Session) (metadata : Metadata)
    (h : currentSoldOf db metadata.appSlug + numSharesOf metadata > MAX_SHARES) :
    settleTransaction db now session metadata =
      ({ db with
          payment_issues := db.payment_issues ++
            [paymentIssueOf session metadata (currentSoldOf db metadata.appSlug)] },
       .quarantined) := by
  unfold currentSoldOf at h
  simp only [settleTransaction, currentSoldOf, if_pos h]

/-- The store after the commit branch: the three writes of lines 418-456. -/
theorem settle_admitted (db : Store) (now : Nat) (session : Session) (metadata : Metadata)
    (h : ¬ currentSoldOf db metadata.appSlug + numSharesOf metadata > MAX_SHARES) :
    settleTransaction db now session metadata =
      ({ db with
          shares := setDoc (shareDocId metadata.appSlug metadata.userId now)
            (shareDocOf session metadata) db.shares
          apps_revenue := fun slug =>
            if slug = metadata.appSlug then
              some (mergeAppDoc (db.apps_revenue metadata.appSlug)
                (currentSoldOf db metadata.appSlug + numSharesOf metadata)
                (decide (metadata.purchaseType = "full")))
            else db.apps_revenue slug
          transactions := db.transactions ++ [transactionDocOf session metadata] },
       .committed) := by
  unfold currentSoldOf at h
  simp only [settleTransaction, currentSoldOf, if_neg h]

/-- The total read for an app after the commit branch. -/
theorem settle_admitted_sold (db : Store) (now : Nat) (session : Session)
    (metadata : Metadata) (slug : String)
    (h : ¬ currentSoldOf db metadata.appSlug + numSharesOf metadata > MAX_SHARES) :
    currentSoldOf (settleTransaction db now session metadata).1 slug =
      if slug = metadata.appSlug then
        currentSoldOf db metadata.appSlug + numSharesOf metadata
      else currentSoldOf db slug := by
  rw [settle_admitted db now session metadata h]
  show (appDataOf (if slug = metadata.appSlug then _ else _)).totalSharesSold = _
  by_cases hs : slug = metadata.appSlug
  · rw [if_pos hs, if_pos hs]; exact merge_sold _ _ _
  · rw [if_neg hs, if_neg hs]; rfl

/-- The ownership flag read for an app after the commit branch. -/
theorem settle_admitted_owned (db : Store) (now : Nat) (session : Session)
    (metadata : Metadata) (slug : String)
    (h : ¬ currentSoldOf db metadata.appSlug + numSharesOf metadata > MAX_SHARES) :
    isFullyOwnedOf (settleTransaction db now session metadata).1 slug =
      if slug = metadata.appSlug then decide (metadata.purchaseType = "full")
      else isFullyOwnedOf db slug := by
  rw [settle_admitted db now session metadata h]
  show (appDataOf (if slug = metadata.appSlug then _ else _)).isFullyOwned = _
  by_cases hs : slug = metadata.appSlug
  · rw [if_pos hs, if_pos hs]; exact merge_owned _ _ _
  · rw [if_neg hs, if_neg hs]; rfl

/-- A settlement event reaches the settlement transaction. -/
theorem handle_settlement (db : Store) (now : Nat) (event : Event) (metadata : Metadata)
    (h : isSettlementFor event metadata) :
    handleStripeWebhook db now event = settleTransaction db now event.session metadata := by
  obtain ⟨ht, hm, ha, hu⟩ := h
  simp [handleStripeWebhook, ht, hm, ha, hu]

/-- Every event is either dropped without a write or is a settlement event. -/
theorem handle_cases (db : Store) (now : Nat) (event : Event) :
    (handleStripeWebhook db now event).1 = db ∨
      ∃ metadata, isSettlementFor event metadata ∧
        handleStripeWebhook db now event =
          settleTransaction db now event.session metadata := by
  by_cases ht : event.type = "checkout.session.completed"
  · cases hm : event.session.metadata with
    | none => left; simp [handleStripeWebhook, ht, hm]
    | some metadata =>
      by_cases hr : metadata.appSlug = "" ∨ metadata.userId = ""
      · left; simp [handleStripeWebhook, ht, hm, hr]
      · right
        have hr2 : metadata.appSlug ≠ "" ∧ metadata.userId ≠ "" := by
          constructor
          · intro h; exact hr (Or.inl h)
          · intro h; exact hr (Or.inr h)
        exact ⟨metadata, ⟨ht, hm, hr2.1, hr2.2⟩,
          handle_settlement db now event metadata ⟨ht, hm, hr2.1, hr2.2⟩⟩
  · left; simp [handleStripeWebhook, ht]

/-- One settlement keeps the total of every app at or below the cap. -/
theorem settle_sold_le (db : Store) (now : Nat) (session : Session) (metadata : Metadata)
    (slug : String) (h : currentSoldOf db slug ≤ 49) :
    currentSoldOf (settleTransaction db now session metadata).1 slug ≤ 49 := by
  by_cases hc : currentSoldOf db metadata.appSlug + numSharesOf metadata > MAX_SHARES
  · rw [settle_oversold db now session metadata hc]
    exact h
  · rw [settle_admitted_sold db now session metadata slug hc]
    simp only [MAX_SHARES] at hc
    split <;> omega

theorem handle_sold_le (db : Store) (now : Nat) (event : Event) (slug : String)
    (h : currentSoldOf db slug ≤ 49) :
    currentSoldOf (handleStripeWebhook db now event).1 slug ≤ 49 := by
  rcases handle_cases db now event with h1 | ⟨metadata, _, h2⟩
  · rw [h1]; exact h
  · rw [h2]; exact settle_sold_le db now event.session metadata slug h

theorem run_sold_le (deliveries : List Delivery) (db : Store) (slug : String)
    (h : currentSoldOf db slug ≤ 49) :
    currentSoldOf (runWebhooks db deliveries) slug ≤ 49 := by
  induction deliveries generalizing db with
  | nil => exact h
  | cons d rest ih =>
    simp only [runWebhooks, List.foldl_cons]
    exact ih _ (handle_sold_le db d.1 d.2 slug h)

/-! ## C1: the cap invariant -/

/-- C1. Starting from an app whose record is absent or the default zero-state
record, after every prefix of every sequence of webhook deliveries (any share
count, negative ones included, any purchase type, any other events in between)
the `totalSharesSold` of the app is at most 49. -/
theorem cap_invariant (db : Store) (appSlug : String) (deliveries : List Delivery) (k : Nat)
    (h0 : db.apps_revenue appSlug = none ∨ db.apps_revenue appSlug = some defaultAppData) :
    currentSoldOf (runWebhooks db (deliveries.take k)) appSlug ≤ 49 := by
  apply run_sold_le
  rcases h0 with h | h <;> simp [currentSoldOf, h, appDataOf, defaultAppData]

/-- Witness of C1: three 30-share purchases of one app, after the first two. -/
theorem cap_invariant_witness :
    (Store.empty.apps_revenue "app" = none ∨
        Store.empty.apps_revenue "app" = some defaultAppData) ∧
      currentSoldOf (runWebhooks Store.empty
        ([(1, sampleEvent "cs_1" "app" "u1" "share" 30 85000),
          (2, sampleEvent "cs_2" "app" "u2" "share" 30 85000),
          (3, sampleEvent "cs_3" "app" "u3" "share" 19 60000)].take 2)) "app" ≤ 49 :=
  ⟨Or.inl rfl, cap_invariant Store.empty "app" _ 2 (Or.inl rfl)⟩

/-! ## C2: settling the same event twice -/

/-- C2, counterexample. One event buying one share of a new app, delivered twice
(at times 1 and 2): the second delivery is applied again. After the first
delivery the app has one share document, one transaction and a total of 1; after
the second it has two share documents, two transactions and a total of 2. -/
theorem settle_twice_counterexample :
    (sharesOfApp (handleStripeWebhook Store.empty 1
        (sampleEvent "cs_1" "app" "u1" "share" 1 1000)).1 "app").length = 1 ∧
    (sharesOfApp (handleStripeWebhook (handleStripeWebhook Store.empty 1
        (sampleEvent "cs_1" "app" "u1" "share" 1 1000)).1 2
        (sampleEvent "cs_1" "app" "u1" "share" 1 1000)).1 "app").length = 2 ∧
    (transactionsOfApp (handleStripeWebhook (handleStripeWebhook Store.empty 1
        (sampleEvent "cs_1" "app" "u1" "share" 1 1000)).1 2
        (sampleEvent "cs_1" "app" "u1" "share" 1 1000)).1 "app").length = 2 ∧
    currentSoldOf (handleStripeWebhook Store.empty 1
        (sampleEvent "cs_1" "app" "u1" "share" 1 1000)).1 "app" = 1 ∧
    currentSoldOf (handleStripeWebhook (handleStripeWebhook Store.empty 1
        (sampleEvent "cs_1" "app" "u1" "share" 1 1000)).1 2
        (sampleEvent "cs_1" "app" "u1" "share" 1 1000)).1 "app" = 2 := by
  decide

/-- C2, amended. The settlement transaction looks up no payment identifier: a
second delivery of an event whose first delivery was committed (total `t` to
`t + n`) is settled like a new event against the state the first one left. If
`t + 2n ≤ 49` it is committed again: one more transaction document, the share
document written once more under the id of the second delivery, and the total
raised to `t + 2n`. If `t + 2n > 49` it is quarantined: shares, transactions and
the app records are as after the first delivery and one `payment_issues` document
is added. -/
theorem settle_twice (db : Store) (now1 now2 : Nat) (event : Event) (metadata : Metadata)
    (h : isSettlementFor event metadata)
    (h1 : currentSoldOf db metadata.appSlug + numSharesOf metadata ≤ 49) :
    (handleStripeWebhook db now1 event).2 = .committed ∧
    (currentSoldOf db metadata.appSlug + 2 * numSharesOf metadata ≤ 49 →
      (handleStripeWebhook (handleStripeWebhook db now1 event).1 now2 event).2 = .committed ∧
      currentSoldOf (handleStripeWebhook (handleStripeWebhook db now1 event).1 now2 event).1
          metadata.appSlug
        = currentSoldOf db metadata.appSlug + 2 * numSharesOf metadata ∧
      (handleStripeWebhook (handleStripeWebhook db now1 event).1 now2 event).1.transactions
        = (handleStripeWebhook db now1 event).1.transactions ++
            [transactionDocOf event.session metadata] ∧
      (handleStripeWebhook (handleStripeWebhook db now1 event).1 now2 event).1.shares
        = setDoc (shareDocId metadata.appSlug metadata.userId now2)
            (shareDocOf event.session metadata) (handleStripeWebhook db now1 event).1.shares ∧
      (handleStripeWebhook (handleStripeWebhook db now1 event).1 now2 event).1.payment_issues
        = (handleStripeWebhook db now1 event).1.payment_issues) ∧
    (currentSoldOf db metadata.appSlug + 2 * numSharesOf metadata > 49 →
      (handleStripeWebhook (handleStripeWebhook db now1 event).1 now2 event).2
        = .quarantined ∧
      (handleStripeWebhook (handleStripeWebhook db now1 event).1 now2 event).1.apps_revenue
        = (handleStripeWebhook db now1 event).1.apps_revenue ∧
      (handleStripeWebhook (handleStripeWebhook db now1 event).1 now2 event).1.shares
        = (handleStripeWebhook db now1 event).1.shares ∧
      (handleStripeWebhook (handleStripeWebhook db now1 event).1 now2 event).1.transactions
        = (handleStripeWebhook db now1 event).1.transactions ∧
      (handleStripeWebhook (handleStripeWebhook db now1 event).1 now2 event).1.payment_issues
        = (handleStripeWebhook db now1 event).1.payment_issues ++
            [paymentIssueOf event.session metadata
              (currentSoldOf db metadata.appSlug + numSharesOf metadata)]) := by
  have hc : ¬ currentSoldOf db metadata.appSlug + numSharesOf metadata > MAX_SHARES := by
    simp only [MAX_SHARES]; omega
  have hsold : currentSoldOf (settleTransaction db now1 event.session metadata).1
      metadata.appSlug = currentSoldOf db metadata.appSlug + numSharesOf metadata := by
    rw [settle_admitted_sold db now1 event.session metadata metadata.appSlug hc, if_pos rfl]
  rw [handle_settlement db now1 event metadata h]
  rw [handle_settlement _ now2 event metadata h]
  refine ⟨?_, ?_, ?_⟩
  · rw [settle_admitted db now1 event.session metadata hc]
  · intro h2
    have hc2 : ¬ currentSoldOf (settleTransaction db now1 event.session metadata).1
        metadata.appSlug + numSharesOf metadata > MAX_SHARES := by
      rw [hsold]; simp only [MAX_SHARES]; omega
    refine ⟨?_, ?_, ?_, ?_, ?_⟩
    · rw [settle_admitted _ now2 event.session metadata hc2]
    · rw [settle_admitted_sold _ now2 event.session metadata metadata.appSlug hc2,
        if_pos rfl, hsold]
      omega
    · rw [settle_admitted _ now2 event.session metadata hc2]
    · rw [settle_admitted _ now2 event.session metadata hc2]
    · rw [settle_admitted _ now2 event.session metadata hc2]
  · intro h2
    have hc2 : currentSoldOf (settleTransaction db now1 event.session metadata).1
        metadata.appSlug + numSharesOf metadata > MAX_SHARES := by
      rw [hsold]; simp only [MAX_SHARES]; omega
    rw [settle_oversold _ now2 event.session metadata hc2, hsold]
    exact ⟨rfl, rfl, rfl, rfl, rfl⟩

/-- Witness of C2 (amended): a 30-share event delivered twice to a new app. -/
theorem settle_twice_witness :
    isSettlementFor (sampleEvent "cs_1" "app" "u1" "share" 30 85000)
      { appSlug := "app", appName := "app", userId := "u1", userEmail := "",
        purchaseType := "share", sharesCount := some 30 } ∧
    (handleStripeWebhook (handleStripeWebhook Store.empty 1
      (sampleEvent "cs_1" "app" "u1" "share" 30 85000)).1 2
      (sampleEvent "cs_1" "app" "u1" "share" 30 85000)).2 = .quarantined :=
  ⟨⟨rfl, rfl, by decide, by decide⟩,
    ((settle_twice Store.empty 1 2 (sampleEvent "cs_1" "app" "u1" "share" 30 85000)
      { appSlug := "app", appName := "app", userId := "u1", userEmail := "",
        purchaseType := "share", sharesCount := some 30 }
      ⟨rfl, rfl, by decide, by decide⟩ (by decide)).2.2 (by decide)).1⟩

/-! ## C3: the oversold branch -/

/-- C3. For every store and every settlement event with
`totalSharesSold + sharesCount > 49` (`sharesCount` being the `numShares` of line
378), the settlement is quarantined: the app records, the share documents and the
transaction log are unchanged, and exactly one `payment_issues` document is
appended, of type `oversold`, unresolved, whose `attemptedShares` is the share
count of the event, whose `currentSharesSold` is the total that was read and whose
`amountPaid` is the amount of the event. -/
theorem oversell_quarantine (db : Store) (now : Nat) (event : Event) (metadata : Metadata)
    (h : isSettlementFor event metadata)
    (hover : currentSoldOf db metadata.appSlug + numSharesOf metadata > 49) :
    (handleStripeWebhook db now event).2 = .quarantined ∧
    (handleStripeWebhook db now event).1.apps_revenue = db.apps_revenue ∧
    currentSoldOf (handleStripeWebhook db now event).1 metadata.appSlug
      = currentSoldOf db metadata.appSlug ∧
    isFullyOwnedOf (handleStripeWebhook db now event).1 metadata.appSlug
      = isFullyOwnedOf db metadata.appSlug ∧
    (handleStripeWebhook db now event).1.shares = db.shares ∧
    (handleStripeWebhook db now event).1.transactions = db.transactions ∧
    (handleStripeWebhook db now event).1.payment_issues = db.payment_issues ++
      [{ type := "oversold", appSlug := metadata.appSlug, userId := metadata.userId,
         sessionId := event.session.id, paymentIntentId := event.session.payment_intent,
         attemptedShares := numSharesOf metadata,
         currentSharesSold := currentSoldOf db metadata.appSlug,
         amountPaid := event.session.amount_total, resolved := false }] := by
  have hc : currentSoldOf db metadata.appSlug + numSharesOf metadata > MAX_SHARES := hover
  rw [handle_settlement db now event metadata h,
    settle_oversold db now event.session metadata hc]
  exact ⟨rfl, rfl, rfl, rfl, rfl, rfl, rfl⟩

/-- Witness of C3: 30 shares asked of an app that has sold 30. -/
theorem oversell_quarantine_witness :
    isSettlementFor (sampleEvent "cs_2" "app" "u2" "share" 30 85000)
      { appSlug := "app", appName := "app", userId := "u2", userEmail := "",
        purchaseType := "share", sharesCount := some 30 } ∧
    (handleStripeWebhook
      { Store.empty with
        apps_revenue := fun _ => some { defaultAppData with totalSharesSold := 30 } } 7
      (sampleEvent "cs_2" "app" "u2" "share" 30 85000)).2 = .quarantined :=
  ⟨⟨rfl, rfl, by decide, by decide⟩,
    (oversell_quarantine
      { Store.empty with
        apps_revenue := fun _ => some { defaultAppData with totalSharesSold := 30 } } 7
      (sampleEvent "cs_2" "app" "u2" "share" 30 85000)
      { appSlug := "app", appName := "app", userId := "u2", userEmail := "",
        purchaseType := "share", sharesCount := some 30 }
      ⟨rfl, rfl, by decide, by decide⟩ (by decide)).1⟩

/-! ## C4: the price ladder -/

/-- The price function in closed form. -/
theorem price_closed_form (sharesSold : Int) :
    getCurrentSharePrice sharesSold =
      if sharesSold < 0 then none
      else if sharesSold ≤ 9 then some 1000
      else if sharesSold ≤ 19 then some 2500
      else if sharesSold ≤ 29 then some 5000
      else if sharesSold ≤ 39 then some 10000
      else if sharesSold ≤ 48 then some 20000
      else none := by
  simp only [getCurrentSharePrice, PRICING_TIERS, List.find?]
  split_ifs <;> (repeat' split) <;> simp_all <;> omega

/-- C4. `getCurrentSharePrice` returns 1000 for 0 to 9 shares sold, 2500 for 10 to
19, 5000 for 20 to 29, 10000 for 30 to 39, 20000 for 40 to 48, and `null` from 49
on; in particular at 0, 9, 10, 48 and 49. -/
theorem price_ladder (sharesSold : Int) :
    (0 ≤ sharesSold ∧ sharesSold ≤ 9 → getCurrentSharePrice sharesSold = some 1000) ∧
    (10 ≤ sharesSold ∧ sharesSold ≤ 19 → getCurrentSharePrice sharesSold = some 2500) ∧
    (20 ≤ sharesSold ∧ sharesSold ≤ 29 → getCurrentSharePrice sharesSold = some 5000) ∧
    (30 ≤ sharesSold ∧ sharesSold ≤ 39 → getCurrentSharePrice sharesSold = some 10000) ∧
    (40 ≤ sharesSold ∧ sharesSold ≤ 48 → getCurrentSharePrice sharesSold = some 20000) ∧
    (49 ≤ sharesSold → getCurrentSharePrice sharesSold = none) ∧
    getCurrentSharePrice 0 = some 1000 ∧ getCurrentSharePrice 9 = some 1000 ∧
    getCurrentSharePrice 10 = some 2500 ∧ getCurrentSharePrice 48 = some 20000 ∧
    getCurrentSharePrice 49 = none := by
  rw [price_closed_form sharesSold]
  refine ⟨?_, ?_, ?_, ?_, ?_, ?_, by decide, by decide, by decide, by decide, by decide⟩ <;>
    intro h <;> split_ifs <;> first | rfl | omega

/-- Witness of C4: the price after 15 shares sold. -/
theorem price_ladder_witness : getCurrentSharePrice 15 = some 2500 :=
  (price_ladder 15).2.1 ⟨by decide, by decide⟩

/-! ## C5: the total of a share quote -/

/-- Below the cap the price is defined and not zero. -/
theorem price_some (c : Int) (h0 : 0 ≤ c) (h1 : c ≤ 48) :
    ∃ p, getCurrentSharePrice c = some p ∧ p ≠ 0 := by
  rw [price_closed_form c]
  split_ifs <;> first | omega | exact ⟨_, rfl, by decide⟩

/-- The price walk never fails while it stays below the cap: it returns the sum
of the prices met and one breakdown line per share. -/
theorem priceWalk_ok (r : Nat) : ∀ (i : Nat) (t c : Int) (bd : List PriceLine),
    0 ≤ c → c + r ≤ 49 →
    priceWalk r i t c bd =
      .ok (t + ((List.range r).map
              (fun k : Nat => (getCurrentSharePrice (c + k)).getD 0)).sum,
           bd ++ (List.range r).map
              (fun k : Nat =>
                { share := c + k + 1, price := (getCurrentSharePrice (c + k)).getD 0 })) := by
  induction r with
  | zero => intro i t c bd _ _; simp [priceWalk]
  | succ r ih =>
    intro i t c bd h0 h1
    obtain ⟨p, hp, hp0⟩ := price_some c h0 (by omega)
    have hstep : priceWalk (r + 1) i t c bd =
        priceWalk r (i + 1) (t + p) (c + 1) (bd ++ [{ share := c + 1, price := p }]) := by
      simp only [priceWalk, hp, if_neg hp0]
    rw [hstep, ih (i + 1) (t + p) (c + 1) _ (by omega) (by push_cast at h1 ⊢; omega)]
    have e1 : ∀ k : Nat, c + 1 + (k : Int) = c + ((k + 1 : Nat) : Int) := by
      intro k; push_cast; ring
    simp only [List.range_succ_eq_map, List.map_cons, List.map_map, List.sum_cons,
      Function.comp_def, Nat.succ_eq_add_one, e1, hp, Option.getD_some, Nat.cast_zero,
      add_zero, zero_add, List.append_assoc, List.singleton_append, add_assoc]

/-- The share quote in closed form, for a total within 0..48. -/
theorem quoteShares_ok (sharesSold : Int) (quantity : Option Int)
    (h0 : 0 ≤ sharesSold) (h1 : sharesSold ≤ 48) :
    quoteShares sharesSold quantity =
      .ok { type := "share",
            price := ((List.range (clampShares sharesSold quantity).toNat).map
              (fun k : Nat => (getCurrentSharePrice (sharesSold + k)).getD 0)).sum,
            shares := clampShares sharesSold quantity,
            priceBreakdown := some ((List.range (clampShares sharesSold quantity).toNat).map
              (fun k : Nat =>
                { share := sharesSold + k + 1,
                  price := (getCurrentSharePrice (sharesSold + k)).getD 0 })) } := by
  have hpos : ¬ clampShares sharesSold quantity ≤ 0 := by
    simp only [clampShares, MAX_SHARES]; omega
  have hle : sharesSold + ((clampShares sharesSold quantity).toNat : Int) ≤ 49 := by
    have : clampShares sharesSold quantity ≤ 49 - sharesSold := by
      simp only [clampShares, MAX_SHARES]; omega
    omega
  simp only [quoteShares, if_neg hpos,
    priceWalk_ok _ 0 0 sharesSold [] h0 hle, zero_add, List.nil_append]

/-- C5. For 0 ≤ sharesSold ≤ 48 and a requested quantity q ≥ 1 the share quote
succeeds with `shares = min(q, 49 - sharesSold)`; the price is defined at each of
the `shares` steps and `price` is the sum of `getCurrentSharePrice(sharesSold + i)`
over `i = 0 .. shares - 1`. From 0 sold, 49 shares cost 365000 and 10, 20, 30 and
40 shares cost 10000, 35000, 85000 and 185000. -/
theorem quote_total (sharesSold q : Int) (h0 : 0 ≤ sharesSold) (h1 : sharesSold ≤ 48)
    (hq : 1 ≤ q) :
    (∃ r, quoteShares sharesSold (some q) = .ok r ∧
      r.shares = min q (49 - sharesSold) ∧
      (∀ i : Nat, (i : Int) < r.shares →
        ∃ p, getCurrentSharePrice (sharesSold + i) = some p) ∧
      r.price = ((List.range r.shares.toNat).map
        (fun i : Nat => (getCurrentSharePrice (sharesSold + i)).getD 0)).sum) ∧
    (quoteShares 0 (some 49)).toOption.map (fun r => r.price) = some 365000 ∧
    (quoteShares 0 (some 10)).toOption.map (fun r => r.price) = some 10000 ∧
    (quoteShares 0 (some 20)).toOption.map (fun r => r.price) = some 35000 ∧
    (quoteShares 0 (some 30)).toOption.map (fun r => r.price) = some 85000 ∧
    (quoteShares 0 (some 40)).toOption.map (fun r => r.price) = some 185000 := by
  refine ⟨⟨_, quoteShares_ok sharesSold (some q) h0 h1, ?_, ?_, rfl⟩,
    by decide, by decide, by decide, by decide, by decide⟩
  · have hq0 : q ≠ 0 := by omega
    simp only [clampShares, parseIntOr1, if_neg hq0, MAX_SHARES]
    omega
  · intro i hi
    have hb : clampShares sharesSold (some q) ≤ 49 - sharesSold := by
      simp only [clampShares, MAX_SHARES]; omega
    obtain ⟨p, hp, _⟩ := price_some (sharesSold + i) (by omega) (by simp only at hi; omega)
    exact ⟨p, hp⟩

/-- Witness of C5: five shares asked when eight are sold. -/
theorem quote_total_witness :
    (0 : Int) ≤ 8 ∧ (8 : Int) ≤ 48 ∧ (1 : Int) ≤ 5 ∧
    ∃ r, quoteShares 8 (some 5) = .ok r ∧ r.shares = min 5 (49 - 8) ∧
      (∀ i : Nat, (i : Int) < r.shares → ∃ p, getCurrentSharePrice (8 + i) = some p) ∧
      r.price = ((List.range r.shares.toNat).map
        (fun i : Nat => (getCurrentSharePrice (8 + i)).getD 0)).sum :=
  ⟨by decide, by decide, by decide,
    (quote_total 8 5 (by decide) (by decide) (by decide)).1⟩

/-! ## C6: clamping of the requested quantity -/

/-- C6, counterexample. With nothing sold and a requested quantity of 0, or of
-5, `min(requestedQty, 49 - sharesSold) ≤ 0` and yet the share quote succeeds, for
one share at 1000 cents. -/
theorem quote_clamp_counterexample :
    min (0 : Int) (49 - 0) ≤ 0 ∧
    quoteShares 0 (some 0) =
      .ok { type := "share", price := 1000, shares := 1,
            priceBreakdown := some [{ share := 1, price := 1000 }] } ∧
    min (-5 : Int) (49 - 0) ≤ 0 ∧
    quoteShares 0 (some (-5)) =
      .ok { type := "share", price := 1000, shares := 1,
            priceBreakdown := some [{ share := 1, price := 1000 }] } := by
  exact ⟨by decide, rfl, by decide, rfl⟩

/-- C6, amended. For sharesSold in 0..49 and every integer requestedQty, the
quantity is first raised to at least 1 (lines 246-249): the share quote fails
with "No shares available" exactly when `min(max(requestedQty, 1), 49 - sharesSold)
≤ 0`, that is exactly when sharesSold = 49, and otherwise succeeds with
`shares = min(max(requestedQty, 1), 49 - sharesSold)`. -/
theorem quote_clamp (sharesSold requestedQty : Int) (h0 : 0 ≤ sharesSold)
    (h1 : sharesSold ≤ 49) :
    (quoteShares sharesSold (some requestedQty) = .error .noSharesAvailable ↔
      min (max requestedQty 1) (49 - sharesSold) ≤ 0) ∧
    (min (max requestedQty 1) (49 - sharesSold) ≤ 0 ↔ sharesSold = 49) ∧
    (¬ min (max requestedQty 1) (49 - sharesSold) ≤ 0 →
      ∃ r, quoteShares sharesSold (some requestedQty) = .ok r ∧
        r.shares = min (max requestedQty 1) (49 - sharesSold)) := by
  have hclamp : clampShares sharesSold (some requestedQty) =
      min (max requestedQty 1) (49 - sharesSold) := by
    simp only [clampShares, parseIntOr1, MAX_SHARES]
    split_ifs <;> omega
  have hiff : min (max requestedQty 1) (49 - sharesSold) ≤ 0 ↔ sharesSold = 49 := by
    constructor <;> intro h <;> omega
  refine ⟨?_, hiff, ?_⟩
  · constructor
    · intro h
      by_contra hn
      have h48 : sharesSold ≤ 48 := by
        by_contra h49
        exact hn (hiff.mpr (by omega))
      rw [quoteShares_ok sharesSold (some requestedQty) h0 h48] at h
      cases h
    · intro h
      have : clampShares sharesSold (some requestedQty) ≤ 0 := by rw [hclamp]; exact h
      simp only [quoteShares, if_pos this]
  · intro hn
    have h48 : sharesSold ≤ 48 := by
      by_contra h49
      exact hn (hiff.mpr (by omega))
    exact ⟨_, quoteShares_ok sharesSold (some requestedQty) h0 h48, hclamp⟩

/-- Witness of C6 (amended): 60 shares asked when 40 are sold. -/
theorem quote_clamp_witness :
    (0 : Int) ≤ 40 ∧ (40 : Int) ≤ 49 ∧
    ∃ r, quoteShares 40 (some 60) = .ok r ∧ r.shares = min (max 60 1) (49 - 40) :=
  ⟨by decide, by decide,
    (quote_clamp 40 60 (by decide) (by decide)).2.2 (by decide)⟩

/-! ## C7: the full purchase quote -/

/-- C7. For a snapshot that is not fully owned (with a total that is not
negative), a quote of type `full`, whatever the quantity, succeeds exactly when
`totalSharesSold` is 0, then with price 100000 and 49 shares; with
`totalSharesSold > 0` it fails with "Cannot purchase full app". For a snapshot
that is fully owned every quote fails with "already been fully purchased". -/
theorem full_buyout_quote (appDoc : Option AppDoc) :
    ((appDataOf appDoc).isFullyOwned = false → 0 ≤ (appDataOf appDoc).totalSharesSold →
      ∀ quantity : Option Int,
        ((∃ r, createCheckoutQuote appDoc "full" quantity = .ok r) ↔
          (appDataOf appDoc).totalSharesSold = 0) ∧
        ((appDataOf appDoc).totalSharesSold = 0 →
          createCheckoutQuote appDoc "full" quantity =
            .ok { type := "full", price := 100000, shares := 49, priceBreakdown := none }) ∧
        ((appDataOf appDoc).totalSharesSold > 0 →
          createCheckoutQuote appDoc "full" quantity = .error .sharesAlreadySold)) ∧
    ((appDataOf appDoc).isFullyOwned = true →
      ∀ (purchaseType : String) (quantity : Option Int),
        createCheckoutQuote appDoc purchaseType quantity = .error .fullyOwned) := by
  constructor
  · intro hown hnn quantity
    have hzero : (appDataOf appDoc).totalSharesSold = 0 →
        createCheckoutQuote appDoc "full" quantity =
          .ok { type := "full", price := 100000, shares := 49, priceBreakdown := none } := by
      intro hz
      simp [createCheckoutQuote, hown, hz, FULL_APP_PRICE, MAX_SHARES]
    have hpos : (appDataOf appDoc).totalSharesSold > 0 →
        createCheckoutQuote appDoc "full" quantity = .error .sharesAlreadySold := by
      intro hp
      simp [createCheckoutQuote, hown, hp]
    refine ⟨⟨?_, fun hz => ⟨_, hzero hz⟩⟩, hzero, hpos⟩
    rintro ⟨r, hr⟩
    by_contra hne
    have hp : (appDataOf appDoc).totalSharesSold > 0 := by omega
    rw [hpos hp] at hr
    cases hr
  · intro hown purchaseType quantity
    simp [createCheckoutQuote, hown]

/-- Witness of C7: a full purchase asked of an app with 3 shares sold. -/
theorem full_buyout_quote_witness :
    (appDataOf (some { defaultAppData with totalSharesSold := 3 })).isFullyOwned = false ∧
    createCheckoutQuote (some { defaultAppData with totalSharesSold := 3 }) "full" (some 1)
      = .error .sharesAlreadySold :=
  ⟨rfl, ((full_buyout_quote (some { defaultAppData with totalSharesSold := 3 })).1 rfl
    (by decide) (some 1)).2.2 (by decide)⟩

/-! ## C8: the total against the transaction log and the share documents -/

/-- Writing under a new id appends the document. -/
theorem setDoc_fresh {α : Type} (id : String) (doc : α) (l : List (String × α))
    (h : ∀ kd ∈ l, kd.1 ≠ id) : setDoc id doc l = l ++ [(id, doc)] := by
  induction l with
  | nil => rfl
  | cons kd rest ih =>
    obtain ⟨k, d⟩ := kd
    have hk : k ≠ id := h (k, d) (List.mem_cons_self _ _)
    simp only [setDoc, if_neg hk, List.cons_append]
    rw [ih (fun x hx => h x (List.mem_cons_of_mem _ hx))]

/-- One settlement keeps the total of an app equal to the share counts logged
for it. -/
theorem settle_log_agree (db : Store) (now : Nat) (session : Session) (metadata : Metadata)
    (slug : String)
    (h : currentSoldOf db slug =
      ((transactionsOfApp db slug).map (fun t => t.sharesCount)).sum) :
    currentSoldOf (settleTransaction db now session metadata).1 slug =
      ((transactionsOfApp (settleTransaction db now session metadata).1 slug).map
        (fun t => t.sharesCount)).sum := by
  by_cases hc : currentSoldOf db metadata.appSlug + numSharesOf metadata > MAX_SHARES
  · rw [settle_oversold db now session metadata hc]
    exact h
  · rw [settle_admitted_sold db now session metadata slug hc,
      settle_admitted db now session metadata hc]
    simp only [transactionsOfApp, List.filter_append, List.map_append, List.sum_append]
    by_cases hs : slug = metadata.appSlug
    · subst hs
      simp only [transactionsOfApp] at h
      simp [transactionDocOf, h]
    · have hs2 : ¬ metadata.appSlug = slug := fun e => hs e.symm
      simp only [transactionsOfApp] at h
      simp [transactionDocOf, hs, hs2, h]

theorem handle_log_agree (db : Store) (now : Nat) (event : Event) (slug : String)
    (h : currentSoldOf db slug =
      ((transactionsOfApp db slug).map (fun t => t.sharesCount)).sum) :
    currentSoldOf (handleStripeWebhook db now event).1 slug =
      ((transactionsOfApp (handleStripeWebhook db now event).1 slug).map
        (fun t => t.sharesCount)).sum := by
  rcases handle_cases db now event with h1 | ⟨metadata, _, h2⟩
  · rw [h1]; exact h
  · rw [h2]; exact settle_log_agree db now event.session metadata slug h

theorem run_log_agree (deliveries : List Delivery) (db : Store) (slug : String)
    (h : currentSoldOf db slug =
      ((transactionsOfApp db slug).map (fun t => t.sharesCount)).sum) :
    currentSoldOf (runWebhooks db deliveries) slug =
      ((transactionsOfApp (runWebhooks db deliveries) slug).map
        (fun t => t.sharesCount)).sum := by
  induction deliveries generalizing db with
  | nil => exact h
  | cons d rest ih =>
    simp only [runWebhooks, List.foldl_cons]
    exact ih _ (handle_log_agree db d.1 d.2 slug h)

/-- One settlement that writes its share document under a new id keeps the
total of an app equal to the shares owned in its share documents. -/
theorem settle_shares_agree (db : Store) (now : Nat) (session : Session)
    (metadata : Metadata) (slug : String)
    (hfresh : (settleTransaction db now session metadata).2 = .committed →
      ∀ kd ∈ db.shares, kd.1 ≠ shareDocId metadata.appSlug metadata.userId now)
    (h : currentSoldOf db slug =
      ((sharesOfApp db slug).map (fun d => d.sharesOwned)).sum) :
    currentSoldOf (settleTransaction db now session metadata).1 slug =
      ((sharesOfApp (settleTransaction db now session metadata).1 slug).map
        (fun d => d.sharesOwned)).sum := by
  by_cases hc : currentSoldOf db metadata.appSlug + numSharesOf metadata > MAX_SHARES
  · rw [settle_oversold db now session metadata hc]
    exact h
  · have hf := hfresh (by rw [settle_admitted db now session metadata hc])
    rw [settle_admitted_sold db now session metadata slug hc,
      settle_admitted db now session metadata hc]
    simp only [sharesOfApp, setDoc_fresh _ _ _ hf, List.map_append, List.filter_append,
      List.sum_append]
    by_cases hs : slug = metadata.appSlug
    · subst hs
      simp only [sharesOfApp] at h
      simp [shareDocOf, h]
    · have hs2 : ¬ metadata.appSlug = slug := fun e => hs e.symm
      simp only [sharesOfApp] at h
      simp [shareDocOf, hs, hs2, h]

theorem run_shares_agree (deliveries : List Delivery) (db : Store) (slug : String)
    (hfresh : freshShareIds db deliveries = true)
    (h : currentSoldOf db slug =
      ((sharesOfApp db slug).map (fun d => d.sharesOwned)).sum) :
    currentSoldOf (runWebhooks db deliveries) slug =
      ((sharesOfApp (runWebhooks db deliveries) slug).map (fun d => d.sharesOwned)).sum := by
  induction deliveries generalizing db with
  | nil => exact h
  | cons d rest ih =>
    simp only [runWebhooks, List.foldl_cons]
    simp only [freshShareIds, Bool.and_eq_true] at hfresh
    refine ih _ hfresh.2 ?_
    rcases handle_cases db d.1 d.2 with h1 | ⟨metadata, hm, h2⟩
    · rw [h1]; exact h
    · rw [h2]
      apply settle_shares_agree db d.1 d.2.session metadata slug _ h
      intro hcommit kd hkd
      have h3 := hfresh.1
      rw [h2, hcommit, hm.2.1] at h3
      simp only [Bool.not_eq_true', List.any_eq_false, decide_eq_true_eq] at h3
      exact h3 kd hkd

/-- C8. The code at the failing input: two settlements of one share each, of the
same app by the same user, whose transactions read the same `Date.now()` (5).
Both are committed and logged and the total is 2, but the second share document
is written under the id of the first, `app_u1_5`, and replaces it: the share
documents of the app own 1 share in all, not the 2 of `totalSharesSold`. -/
theorem ledger_shares_counterexample :
    currentSoldOf (runWebhooks Store.empty
      [(5, sampleEvent "cs_1" "app" "u1" "share" 1 1000),
       (5, sampleEvent "cs_2" "app" "u1" "share" 1 1000)]) "app" = 2 ∧
    ((transactionsOfApp (runWebhooks Store.empty
      [(5, sampleEvent "cs_1" "app" "u1" "share" 1 1000),
       (5, sampleEvent "cs_2" "app" "u1" "share" 1 1000)]) "app").map
        (fun t => t.sharesCount)).sum = 2 ∧
    ((sharesOfApp (runWebhooks Store.empty
      [(5, sampleEvent "cs_1" "app" "u1" "share" 1 1000),
       (5, sampleEvent "cs_2" "app" "u1" "share" 1 1000)]) "app").map
        (fun d => d.sharesOwned)).sum = 1 ∧
    (runWebhooks Store.empty
      [(5, sampleEvent "cs_1" "app" "u1" "share" 1 1000),
       (5, sampleEvent "cs_2" "app" "u1" "share" 1 1000)]).shares.map (fun kd => kd.1)
      = ["app_u1_5"] := by
  decide

/-- What the code keeps of the agreement between ledger and logs. Starting from
an app with a total of 0, no transaction and no share document, after every
prefix of every sequence of webhook deliveries the `totalSharesSold` of the app
equals the sum of `sharesCount` over its transaction documents; and it equals the
sum of `sharesOwned` over its share documents whenever every committed delivery
of the prefix wrote its share document under an id (`appSlug_userId_Date.now()`)
that no share document had yet. -/
theorem ledger_log_agreement (db : Store) (appSlug : String) (deliveries : List Delivery)
    (k : Nat) (hsold : currentSoldOf db appSlug = 0)
    (hlog : transactionsOfApp db appSlug = []) (hshares : sharesOfApp db appSlug = []) :
    currentSoldOf (runWebhooks db (deliveries.take k)) appSlug =
      ((transactionsOfApp (runWebhooks db (deliveries.take k)) appSlug).map
        (fun t => t.sharesCount)).sum ∧
    (freshShareIds db (deliveries.take k) = true →
      currentSoldOf (runWebhooks db (deliveries.take k)) appSlug =
        ((sharesOfApp (runWebhooks db (deliveries.take k)) appSlug).map
          (fun d => d.sharesOwned)).sum) := by
  constructor
  · apply run_log_agree
    rw [hsold, hlog]; rfl
  · intro hfresh
    apply run_shares_agree _ _ _ hfresh
    rw [hsold, hshares]; rfl

/-- Two purchases of one app at different times keep ledger and share documents
in agreement. -/
theorem ledger_log_agreement_witness :
    currentSoldOf Store.empty "app" = 0 ∧
    freshShareIds Store.empty
      ([(5, sampleEvent "cs_1" "app" "u1" "share" 1 1000),
        (6, sampleEvent "cs_2" "app" "u1" "share" 1 1000)].take 2) = true ∧
    currentSoldOf (runWebhooks Store.empty
      ([(5, sampleEvent "cs_1" "app" "u1" "share" 1 1000),
        (6, sampleEvent "cs_2" "app" "u1" "share" 1 1000)].take 2)) "app" =
      ((sharesOfApp (runWebhooks Store.empty
        ([(5, sampleEvent "cs_1" "app" "u1" "share" 1 1000),
          (6, sampleEvent "cs_2" "app" "u1" "share" 1 1000)].take 2)) "app").map
        (fun d => d.sharesOwned)).sum :=
  ⟨rfl, by decide,
    (ledger_log_agreement Store.empty "app"
      [(5, sampleEvent "cs_1" "app" "u1" "share" 1 1000),
       (6, sampleEvent "cs_2" "app" "u1" "share" 1 1000)] 2 rfl rfl rfl).2 (by decide)⟩

/-! ## C9: settlement against a fully owned app -/

/-- C9, counterexample. An app record with `isFullyOwned` true and 0 shares sold,
and a settlement event for one share: the event is committed, a share document
and a transaction are written and the total becomes 1. -/
theorem fully_owned_counterexample :
    isFullyOwnedOf
      { Store.empty with
        apps_revenue := fun slug =>
          if slug = "app" then some { defaultAppData with isFullyOwned := true } else none }
      "app" = true ∧
    (handleStripeWebhook
      { Store.empty with
        apps_revenue := fun slug =>
          if slug = "app" then some { defaultAppData with isFullyOwned := true } else none }
      1 (sampleEvent "cs_1" "app" "u1" "share" 1 1000)).2 = .committed ∧
    (handleStripeWebhook
      { Store.empty with
        apps_revenue := fun slug =>
          if slug = "app" then some { defaultAppData with isFullyOwned := true } else none }
      1 (sampleEvent "cs_1" "app" "u1" "share" 1 1000)).1.shares.length = 1 ∧
    (handleStripeWebhook
      { Store.empty with
        apps_revenue := fun slug =>
          if slug = "app" then some { defaultAppData with isFullyOwned := true } else none }
      1 (sampleEvent "cs_1" "app" "u1" "share" 1 1000)).1.transactions.length = 1 ∧
    currentSoldOf (handleStripeWebhook
      { Store.empty with
        apps_revenue := fun slug =>
          if slug = "app" then some { defaultAppData with isFullyOwned := true } else none }
      1 (sampleEvent "cs_1" "app" "u1" "share" 1 1000)).1 "app" = 1 := by
  decide

/-- C9, amended. The settlement transaction does not read `isFullyOwned`; it
admits an event by the cap alone. For every store in which the app is fully
owned with `totalSharesSold ≥ 49` (a committed full purchase of 49 shares leaves
49) and every settlement event with a share count of at least 1, the event is
not committed: it is quarantined, no share document and no transaction is
written and the app records, `totalSharesSold` included, are unchanged. -/
theorem fully_owned_no_sale (db : Store) (now : Nat) (event : Event) (metadata : Metadata)
    (h : isSettlementFor event metadata)
    (hown : isFullyOwnedOf db metadata.appSlug = true)
    (hsold : 49 ≤ currentSoldOf db metadata.appSlug)
    (hn : 1 ≤ numSharesOf metadata) :
    (handleStripeWebhook db now event).2 = .quarantined ∧
    (handleStripeWebhook db now event).1.shares = db.shares ∧
    (handleStripeWebhook db now event).1.transactions = db.transactions ∧
    (handleStripeWebhook db now event).1.apps_revenue = db.apps_revenue ∧
    currentSoldOf (handleStripeWebhook db now event).1 metadata.appSlug
      = currentSoldOf db metadata.appSlug ∧
    isFullyOwnedOf (handleStripeWebhook db now event).1 metadata.appSlug = true := by
  have hc : currentSoldOf db metadata.appSlug + numSharesOf metadata > MAX_SHARES := by
    simp only [MAX_SHARES]; omega
  rw [handle_settlement db now event metadata h,
    settle_oversold db now event.session metadata hc]
  exact ⟨rfl, rfl, rfl, rfl, rfl, hown⟩

/-- Witness of C9 (amended): one share asked of a fully owned app at 49 sold. -/
theorem fully_owned_no_sale_witness :
    isSettlementFor (sampleEvent "cs_9" "app" "u2" "share" 1 20000)
      { appSlug := "app", appName := "app", userId := "u2", userEmail := "",
        purchaseType := "share", sharesCount := some 1 } ∧
    (handleStripeWebhook
      { Store.empty with
        apps_revenue := fun slug =>
          if slug = "app" then
            some { defaultAppData with totalSharesSold := 49, isFullyOwned := true }
          else none }
      3 (sampleEvent "cs_9" "app" "u2" "share" 1 20000)).2 = .quarantined :=
  ⟨⟨rfl, rfl, by decide, by decide⟩,
    (fully_owned_no_sale
      { Store.empty with
        apps_revenue := fun slug =>
          if slug = "app" then
            some { defaultAppData with totalSharesSold := 49, isFullyOwned := true }
          else none }
      3 (sampleEvent "cs_9" "app" "u2" "share" 1 20000)
      { appSlug := "app", appName := "app", userId := "u2", userEmail := "",
        purchaseType := "share", sharesCount := some 1 }
      ⟨rfl, rfl, by decide, by decide⟩ (by decide) (by decide) (by decide)).1⟩

/-! ## C10: two competing 30-share settlements -/

/-- Writing a document of an app that has no share document yet leaves the app
with that one document. -/
theorem setDoc_filter_single {α : Type} (p : α → Bool) (id : String) (doc : α)
    (l : List (String × α)) (hl : (l.map (fun kd => kd.2)).filter p = [])
    (hp : p doc = true) :
    ((setDoc id doc l).map (fun kd => kd.2)).filter p = [doc] := by
  induction l with
  | nil => simp [setDoc, hp]
  | cons kd rest ih =>
    obtain ⟨k, d⟩ := kd
    simp only [List.map_cons] at hl
    have hd : p d = false := by
      by_contra hne
      have : p d = true := by simpa using hne
      rw [List.filter_cons_of_pos this] at hl
      cases hl
    have hd2 : ¬ p d = true := by simp [hd]
    rw [List.filter_cons_of_neg hd2] at hl
    by_cases hk : k = id
    · simp only [setDoc, if_pos hk, List.map_cons]
      rw [List.filter_cons_of_pos hp, hl]
    · simp only [setDoc, if_neg hk, List.map_cons]
      rw [List.filter_cons_of_neg hd2]
      exact ih hl

/-- Two 30-share settlements of an app at 0 sold, handled one after the other:
the first is committed, the second quarantined. -/
theorem first_wins (db : Store) (nowA nowB : Nat) (e1 e2 : Event) (m1 m2 : Metadata)
    (h1 : isSettlementFor e1 m1) (h2 : isSettlementFor e2 m2)
    (happ : m2.appSlug = m1.appSlug)
    (hn1 : numSharesOf m1 = 30) (hn2 : numSharesOf m2 = 30)
    (h0 : currentSoldOf db m1.appSlug = 0) (hs : sharesOfApp db m1.appSlug = []) :
    (handleStripeWebhook db nowA e1).2 = .committed ∧
    (handleStripeWebhook (handleStripeWebhook db nowA e1).1 nowB e2).2 = .quarantined ∧
    currentSoldOf (handleStripeWebhook (handleStripeWebhook db nowA e1).1 nowB e2).1
      m1.appSlug = 30 ∧
    sharesOfApp (handleStripeWebhook (handleStripeWebhook db nowA e1).1 nowB e2).1
      m1.appSlug = [shareDocOf e1.session m1] ∧
    (handleStripeWebhook (handleStripeWebhook db nowA e1).1 nowB e2).1.payment_issues =
      db.payment_issues ++ [paymentIssueOf e2.session m2 30] := by
  have hc : ¬ currentSoldOf db m1.appSlug + numSharesOf m1 > MAX_SHARES := by
    rw [h0, hn1]; decide
  have hsold : currentSoldOf (settleTransaction db nowA e1.session m1).1 m2.appSlug = 30 := by
    rw [settle_admitted_sold db nowA e1.session m1 m2.appSlug hc, if_pos happ, h0, hn1]
    rfl
  have hc2 : currentSoldOf (settleTransaction db nowA e1.session m1).1 m2.appSlug +
      numSharesOf m2 > MAX_SHARES := by
    rw [hsold, hn2]; decide
  rw [handle_settlement db nowA e1 m1 h1, handle_settlement _ nowB e2 m2 h2,
    settle_oversold _ nowB e2.session m2 hc2, hsold]
  refine ⟨?_, rfl, ?_, ?_, ?_⟩
  · rw [settle_admitted db nowA e1.session m1 hc]
  · show currentSoldOf (settleTransaction db nowA e1.session m1).1 m1.appSlug = 30
    rw [← happ]; exact hsold
  · show sharesOfApp (settleTransaction db nowA e1.session m1).1 m1.appSlug = _
    rw [settle_admitted db nowA e1.session m1 hc]
    exact setDoc_filter_single (fun d : ShareDoc => decide (d.appSlug = m1.appSlug))
      (shareDocId m1.appSlug m1.userId nowA) (shareDocOf e1.session m1) db.shares hs
      (by simp [shareDocOf])
  · show (settleTransaction db nowA e1.session m1).1.payment_issues ++ _ = _
    rw [settle_admitted db nowA e1.session m1 hc]

/-- C10. Two settlement events with distinct session ids, each for 30 shares of
the same app, applied one after the other to a store in which the app has 0
shares sold and no share document. In either order the one handled first is
committed and the other is quarantined with `attemptedShares = 30` and
`currentSharesSold = 30`; the final `totalSharesSold` is 30 and the app has one
share document, of 30 shares. -/
theorem two_competing_settlements (db : Store) (nowA nowB : Nat) (e1 e2 : Event)
    (m1 m2 : Metadata) (h1 : isSettlementFor e1 m1) (h2 : isSettlementFor e2 m2)
    (_hid : e1.session.id ≠ e2.session.id) (happ : m2.appSlug = m1.appSlug)
    (hn1 : numSharesOf m1 = 30) (hn2 : numSharesOf m2 = 30)
    (h0 : currentSoldOf db m1.appSlug = 0) (hs : sharesOfApp db m1.appSlug = []) :
    ((handleStripeWebhook db nowA e1).2 = .committed ∧
      (handleStripeWebhook (handleStripeWebhook db nowA e1).1 nowB e2).2 = .quarantined ∧
      currentSoldOf (handleStripeWebhook (handleStripeWebhook db nowA e1).1 nowB e2).1
        m1.appSlug = 30 ∧
      (∃ doc, sharesOfApp (handleStripeWebhook (handleStripeWebhook db nowA e1).1 nowB e2).1
        m1.appSlug = [doc] ∧ doc.sharesOwned = 30 ∧ doc.stripeSessionId = e1.session.id) ∧
      (∃ issue,
        (handleStripeWebhook (handleStripeWebhook db nowA e1).1 nowB e2).1.payment_issues =
          db.payment_issues ++ [issue] ∧
        issue.sessionId = e2.session.id ∧ issue.attemptedShares = 30 ∧
        issue.currentSharesSold = 30)) ∧
    ((handleStripeWebhook db nowA e2).2 = .committed ∧
      (handleStripeWebhook (handleStripeWebhook db nowA e2).1 nowB e1).2 = .quarantined ∧
      currentSoldOf (handleStripeWebhook (handleStripeWebhook db nowA e2).1 nowB e1).1
        m1.appSlug = 30 ∧
      (∃ doc, sharesOfApp (handleStripeWebhook (handleStripeWebhook db nowA e2).1 nowB e1).1
        m1.appSlug = [doc] ∧ doc.sharesOwned = 30 ∧ doc.stripeSessionId = e2.session.id) ∧
      (∃ issue,
        (handleStripeWebhook (handleStripeWebhook db nowA e2).1 nowB e1).1.payment_issues =
          db.payment_issues ++ [issue] ∧
        issue.sessionId = e1.session.id ∧ issue.attemptedShares = 30 ∧
        issue.currentSharesSold = 30)) := by
  constructor
  · obtain ⟨a, b, c, d, e⟩ := first_wins db nowA nowB e1 e2 m1 m2 h1 h2 happ hn1 hn2 h0 hs
    exact ⟨a, b, c, ⟨_, d, hn1, rfl⟩, ⟨_, e, rfl, hn2, rfl⟩⟩
  · obtain ⟨a, b, c, d, e⟩ := first_wins db nowA nowB e2 e1 m2 m1 h2 h1 happ.symm hn2 hn1
      (by rw [happ]; exact h0) (by rw [happ]; exact hs)
    rw [happ] at c d
    exact ⟨a, b, c, ⟨_, d, hn2, rfl⟩, ⟨_, e, rfl, hn1, rfl⟩⟩

/-- Witness of C10: users `u1` and `u2` each pay for 30 shares of a new app. -/
theorem two_competing_settlements_witness :
    isSettlementFor (sampleEvent "cs_1" "app" "u1" "share" 30 85000)
      { appSlug := "app", appName := "app", userId := "u1", userEmail := "",
        purchaseType := "share", sharesCount := some 30 } ∧
    isSettlementFor (sampleEvent "cs_2" "app" "u2" "share" 30 85000)
      { appSlug := "app", appName := "app", userId := "u2", userEmail := "",
        purchaseType := "share", sharesCount := some 30 } ∧
    (handleStripeWebhook Store.empty 1
      (sampleEvent "cs_1" "app" "u1" "share" 30 85000)).2 = .committed ∧
    (handleStripeWebhook (handleStripeWebhook Store.empty 1
      (sampleEvent "cs_1" "app" "u1" "share" 30 85000)).1 2
      (sampleEvent "cs_2" "app" "u2" "share" 30 85000)).2 = .quarantined :=
  ⟨⟨rfl, rfl, by decide, by decide⟩, ⟨rfl, rfl, by decide, by decide⟩,
    (two_competing_settlements Store.empty 1 2
      (sampleEvent "cs_1" "app" "u1" "share" 30 85000)
      (sampleEvent "cs_2" "app" "u2" "share" 30 85000)
      { appSlug := "app", appName := "app", userId := "u1", userEmail := "",
        purchaseType := "share", sharesCount := some 30 }
      { appSlug := "app", appName := "app", userId := "u2", userEmail := "",
        purchaseType := "share", sharesCount := some 30 }
      ⟨rfl, rfl, by decide, by decide⟩ ⟨rfl, rfl, by decide, by decide⟩
      (by decide) rfl rfl rfl rfl rfl).1.1,
    (two_competing_settlements Store.empty 1 2
      (sampleEvent "cs_1" "app" "u1" "share" 30 85000)
      (sampleEvent "cs_2" "app" "u2" "share" 30 85000)
      { appSlug := "app", appName := "app", userId := "u1", userEmail := "",
        purchaseType := "share", sharesCount := some 30 }
      { appSlug := "app", appName := "app", userId := "u2", userEmail := "",
        purchaseType := "share", sharesCount := some 30 }
      ⟨rfl, rfl, by decide, by decide⟩ ⟨rfl, rfl, by decide, by decide⟩
      (by decide) rfl rfl rfl rfl rfl).1.2.1⟩

/-! ## C11: the ownership flag after a commit -/

/-- A settlement is committed exactly when the cap check of line 394 passes. -/
theorem settle_committed_iff (db : Store) (now : Nat) (session : Session)
    (metadata : Metadata) :
    (settleTransaction db now session metadata).2 = .committed ↔
      ¬ currentSoldOf db metadata.appSlug + numSharesOf metadata > MAX_SHARES := by
  by_cases hc : currentSoldOf db metadata.appSlug + numSharesOf metadata > MAX_SHARES
  · rw [settle_oversold db now session metadata hc]
    simp [hc]
  · rw [settle_admitted db now session metadata hc]
    simp [hc]

/-- A settlement is quarantined exactly when the cap check of line 394 fails. -/
theorem settle_quarantined_iff (db : Store) (now : Nat) (session : Session)
    (metadata : Metadata) :
    (settleTransaction db now session metadata).2 = .quarantined ↔
      currentSoldOf db metadata.appSlug + numSharesOf metadata > MAX_SHARES := by
  by_cases hc : currentSoldOf db metadata.appSlug + numSharesOf metadata > MAX_SHARES
  · rw [settle_oversold db now session metadata hc]
    simp [hc]
  · rw [settle_admitted db now session metadata hc]
    simp [hc]

/-- C11, counterexample. An app record with `isFullyOwned` true and 0 shares
sold, and a settlement event of type `share` for one share: the event is
committed and `isFullyOwned` is false afterwards, while (old flag OR full
purchase) is true. -/
theorem owned_flag_counterexample :
    isFullyOwnedOf (sampleStore "app" { defaultAppData with isFullyOwned := true }) "app"
      = true ∧
    (handleStripeWebhook (sampleStore "app" { defaultAppData with isFullyOwned := true }) 1
      (sampleEvent "cs_1" "app" "u1" "share" 1 1000)).2 = .committed ∧
    isFullyOwnedOf
      (handleStripeWebhook (sampleStore "app" { defaultAppData with isFullyOwned := true }) 1
        (sampleEvent "cs_1" "app" "u1" "share" 1 1000)).1 "app" = false := by
  decide

/-- C11, amended. For every store and every settlement event that is committed,
the new `isFullyOwned` of the app is (purchaseType = "full"): the flag is
overwritten, the old value is not read. It equals (old flag OR full purchase)
whenever the old flag is false or the event is a full purchase. -/
theorem owned_flag_overwritten (db : Store) (now : Nat) (event : Event)
    (metadata : Metadata) (h : isSettlementFor event metadata)
    (hc : (handleStripeWebhook db now event).2 = .committed) :
    isFullyOwnedOf (handleStripeWebhook db now event).1 metadata.appSlug
      = decide (metadata.purchaseType = "full") ∧
    (isFullyOwnedOf db metadata.appSlug = false ∨ metadata.purchaseType = "full" →
      isFullyOwnedOf (handleStripeWebhook db now event).1 metadata.appSlug
        = (isFullyOwnedOf db metadata.appSlug || decide (metadata.purchaseType = "full"))) := by
  rw [handle_settlement db now event metadata h] at hc ⊢
  have hadm := (settle_committed_iff db now event.session metadata).mp hc
  have hnew := settle_admitted_owned db now event.session metadata metadata.appSlug hadm
  rw [if_pos rfl] at hnew
  refine ⟨hnew, ?_⟩
  rintro (hold | hfull)
  · rw [hnew, hold]; simp
  · rw [hnew]; simp [hfull]

/-- Witness of C11 (amended): a full purchase of 49 shares of a new app. -/
theorem owned_flag_overwritten_witness :
    isSettlementFor (sampleEvent "cs_1" "app" "u1" "full" 49 100000)
      { appSlug := "app", appName := "app", userId := "u1", userEmail := "",
        purchaseType := "full", sharesCount := some 49 } ∧
    (handleStripeWebhook Store.empty 1
      (sampleEvent "cs_1" "app" "u1" "full" 49 100000)).2 = .committed ∧
    isFullyOwnedOf (handleStripeWebhook Store.empty 1
      (sampleEvent "cs_1" "app" "u1" "full" 49 100000)).1 "app" = true :=
  ⟨⟨rfl, rfl, by decide, by decide⟩, by decide,
    (owned_flag_overwritten Store.empty 1 (sampleEvent "cs_1" "app" "u1" "full" 49 100000)
      { appSlug := "app", appName := "app", userId := "u1", userEmail := "",
        purchaseType := "full", sharesCount := some 49 }
      ⟨rfl, rfl, by decide, by decide⟩ (by decide)).1⟩

/-! ## C12: the effects of a commit -/

/-- C12, counterexample. A full purchase of 49 shares of a new app is committed,
and besides the share document, the transaction and the total it changes the
`isFullyOwned` flag of the app record, from false to true. -/
theorem commit_effects_counterexample :
    (handleStripeWebhook Store.empty 1
      (sampleEvent "cs_1" "app" "u1" "full" 49 100000)).2 = .committed ∧
    currentSoldOf Store.empty "app" + 49 ≤ 49 ∧
    isFullyOwnedOf Store.empty "app" = false ∧
    isFullyOwnedOf (handleStripeWebhook Store.empty 1
      (sampleEvent "cs_1" "app" "u1" "full" 49 100000)).1 "app" = true := by
  decide

/-- C12, amended. For every store and every settlement event with
`totalSharesSold + sharesCount ≤ 49` whose share document id
(`appSlug_userId_Date.now()`) is not in use, the event is committed and the
store afterwards is the prior one with exactly these changes: one new share
document (shares owned, amount paid, purchase type, session id and payment
intent id of the event), one new transaction document (share count and amount
of the event), the total of the app raised by the share count, and the
`isFullyOwned` flag of the app set to (purchaseType = "full"). The revenue fields
of the app, the records of the other apps and the payment issues are
unchanged. -/
theorem commit_effects (db : Store) (now : Nat) (event : Event) (metadata : Metadata)
    (h : isSettlementFor event metadata)
    (hle : currentSoldOf db metadata.appSlug + numSharesOf metadata ≤ 49)
    (hfresh : ∀ kd ∈ db.shares, kd.1 ≠ shareDocId metadata.appSlug metadata.userId now) :
    (handleStripeWebhook db now event).2 = .committed ∧
    (handleStripeWebhook db now event).1.shares = db.shares ++
      [(shareDocId metadata.appSlug metadata.userId now,
        { appSlug := metadata.appSlug, appName := strOr metadata.appName metadata.appSlug,
          userId := metadata.userId, userEmail := strOr metadata.userEmail "",
          sharesOwned := numSharesOf metadata, totalPaid := event.session.amount_total,
          purchaseType := metadata.purchaseType, stripeSessionId := event.session.id,
          stripePaymentIntentId := event.session.payment_intent })] ∧
    (handleStripeWebhook db now event).1.transactions = db.transactions ++
      [{ type := if metadata.purchaseType = "full" then "full_purchase"
                 else "share_purchase",
         appSlug := metadata.appSlug, userId := metadata.userId,
         userEmail := strOr metadata.userEmail "", sharesCount := numSharesOf metadata,
         amount := event.session.amount_total, currency := event.session.currency,
         stripeSessionId := event.session.id,
         stripePaymentIntentId := event.session.payment_intent }] ∧
    (handleStripeWebhook db now event).1.apps_revenue metadata.appSlug =
      some { totalSharesSold := currentSoldOf db metadata.appSlug + numSharesOf metadata,
             isFullyOwned := decide (metadata.purchaseType = "full"),
             totalRevenue := (appDataOf (db.apps_revenue metadata.appSlug)).totalRevenue,
             revenueShareActive :=
               (appDataOf (db.apps_revenue metadata.appSlug)).revenueShareActive } ∧
    (∀ slug, slug ≠ metadata.appSlug →
      (handleStripeWebhook db now event).1.apps_revenue slug = db.apps_revenue slug) ∧
    (handleStripeWebhook db now event).1.payment_issues = db.payment_issues := by
  have hc : ¬ currentSoldOf db metadata.appSlug + numSharesOf metadata > MAX_SHARES := by
    simp only [MAX_SHARES]; omega
  rw [handle_settlement db now event metadata h,
    settle_admitted db now event.session metadata hc]
  refine ⟨rfl, ?_, rfl, ?_, ?_, rfl⟩
  · exact setDoc_fresh _ _ _ hfresh
  · show (if metadata.appSlug = metadata.appSlug then _ else _) = _
    rw [if_pos rfl]
    cases hdoc : db.apps_revenue metadata.appSlug <;> rfl
  · intro slug hs
    show (if slug = metadata.appSlug then _ else _) = _
    rw [if_neg hs]

/-- Witness of C12 (amended): five shares bought of a new app. -/
theorem commit_effects_witness :
    isSettlementFor (sampleEvent "cs_1" "app" "u1" "share" 5 5000)
      { appSlug := "app", appName := "app", userId := "u1", userEmail := "",
        purchaseType := "share", sharesCount := some 5 } ∧
    currentSoldOf Store.empty "app" + 5 ≤ 49 ∧
    (handleStripeWebhook Store.empty 1
      (sampleEvent "cs_1" "app" "u1" "share" 5 5000)).1.apps_revenue "app" =
      some { totalSharesSold := 0 + 5, isFullyOwned := false, totalRevenue := 0,
             revenueShareActive := false } :=
  ⟨⟨rfl, rfl, by decide, by decide⟩, by decide,
    (commit_effects Store.empty 1 (sampleEvent "cs_1" "app" "u1" "share" 5 5000)
      { appSlug := "app", appName := "app", userId := "u1", userEmail := "",
        purchaseType := "share", sharesCount := some 5 }
      ⟨rfl, rfl, by decide, by decide⟩ (by decide)
      (fun kd hkd => absurd hkd (List.not_mem_nil kd))).2.2.2.1⟩

/-! ## C13: full purchases and the total read -/

/-- C13, counterexample. An app with 10 shares sold and a settlement event of
type `full` whose share count is 1: the event is committed and sets
`isFullyOwned`, and the total read before the commit was 10. -/
theorem buyout_counterexample :
    currentSoldOf (sampleStore "app" { defaultAppData with totalSharesSold := 10 }) "app"
      = 10 ∧
    (handleStripeWebhook (sampleStore "app" { defaultAppData with totalSharesSold := 10 }) 1
      (sampleEvent "cs_1" "app" "u1" "full" 1 100000)).2 = .committed ∧
    isFullyOwnedOf
      (handleStripeWebhook (sampleStore "app" { defaultAppData with totalSharesSold := 10 }) 1
        (sampleEvent "cs_1" "app" "u1" "full" 1 100000)).1 "app" = true ∧
    currentSoldOf
      (handleStripeWebhook (sampleStore "app" { defaultAppData with totalSharesSold := 10 }) 1
        (sampleEvent "cs_1" "app" "u1" "full" 1 100000)).1 "app" = 11 := by
  decide

/-- C13, amended. The settlement transaction has no check of its own for full
purchases: an event is committed exactly when `totalSharesSold + sharesCount ≤
49`. For every store with a total that is not negative and every settlement
event of type `full` with a share count of at least 49 (the checkout attaches 49
to a full purchase), if the event is committed then the total read before the
commit was 0, and `isFullyOwned` is set. -/
theorem buyout_from_zero (db : Store) (now : Nat) (event : Event) (metadata : Metadata)
    (h : isSettlementFor event metadata)
    (hfull : metadata.purchaseType = "full")
    (h49 : 49 ≤ numSharesOf metadata)
    (hnn : 0 ≤ currentSoldOf db metadata.appSlug) :
    ((handleStripeWebhook db now event).2 = .committed ↔
      currentSoldOf db metadata.appSlug + numSharesOf metadata ≤ 49) ∧
    ((handleStripeWebhook db now event).2 = .committed →
      currentSoldOf db metadata.appSlug = 0 ∧
      isFullyOwnedOf (handleStripeWebhook db now event).1 metadata.appSlug = true) := by
  rw [handle_settlement db now event metadata h]
  have hiff := settle_committed_iff db now event.session metadata
  simp only [MAX_SHARES] at hiff
  refine ⟨by rw [hiff]; omega, ?_⟩
  intro hc
  have hadm : ¬ currentSoldOf db metadata.appSlug + numSharesOf metadata > MAX_SHARES :=
    (settle_committed_iff db now event.session metadata).mp hc
  have hnew := settle_admitted_owned db now event.session metadata metadata.appSlug hadm
  rw [if_pos rfl] at hnew
  have hle := hiff.mp hc
  refine ⟨by omega, ?_⟩
  rw [hnew]; simp [hfull]

/-- Witness of C13 (amended): a full purchase of 49 shares of a new app. -/
theorem buyout_from_zero_witness :
    isSettlementFor (sampleEvent "cs_3" "app" "u3" "full" 49 100000)
      { appSlug := "app", appName := "app", userId := "u3", userEmail := "",
        purchaseType := "full", sharesCount := some 49 } ∧
    (handleStripeWebhook Store.empty 4
      (sampleEvent "cs_3" "app" "u3" "full" 49 100000)).2 = .committed ∧
    currentSoldOf Store.empty "app" = 0 :=
  ⟨⟨rfl, rfl, by decide, by decide⟩, by decide,
    ((buyout_from_zero Store.empty 4 (sampleEvent "cs_3" "app" "u3" "full" 49 100000)
      { appSlug := "app", appName := "app", userId := "u3", userEmail := "",
        purchaseType := "full", sharesCount := some 49 }
      ⟨rfl, rfl, by decide, by decide⟩ rfl (by decide) (by decide)).2 (by decide)).1⟩

/-! ## C14: prices do not decrease -/

/-- The price, read as 0 where it is `null`, does not decrease between 0 and 48
shares sold. -/
theorem price_mono_getD (a b : Int) (h0 : 0 ≤ a) (hab : a ≤ b) (hb : b ≤ 48) :
    (getCurrentSharePrice a).getD 0 ≤ (getCurrentSharePrice b).getD 0 := by
  rw [price_closed_form a, price_closed_form b]
  split_ifs <;> simp only [Option.getD_some, Option.getD_none] <;> omega

/-- With a negative total the price walk stops at its first step. -/
theorem quoteShares_negative (sharesSold : Int) (quantity : Option Int)
    (hneg : sharesSold < 0) :
    quoteShares sharesSold quantity = .error (.onlyAvailable 0) := by
  have hpos : ¬ clampShares sharesSold quantity ≤ 0 := by
    simp only [clampShares, MAX_SHARES]; omega
  have hprice : getCurrentSharePrice sharesSold = none := by
    rw [price_closed_form sharesSold, if_pos hneg]
  obtain ⟨k, hk⟩ : ∃ k, (clampShares sharesSold quantity).toNat = k + 1 :=
    ⟨(clampShares sharesSold quantity).toNat - 1, by omega⟩
  simp only [quoteShares, if_neg hpos, hk, priceWalk, hprice]

/-- With 49 shares sold or more the share quote fails with "No shares
available". -/
theorem quoteShares_sold_out (sharesSold : Int) (quantity : Option Int)
    (h49 : 49 ≤ sharesSold) :
    quoteShares sharesSold quantity = .error .noSharesAvailable := by
  have hle : clampShares sharesSold quantity ≤ 0 := by
    simp only [clampShares, MAX_SHARES]; omega
  simp only [quoteShares, if_pos hle]

/-- A share quote that succeeds was made with 0 to 48 shares sold. -/
theorem quoteShares_ok_range (sharesSold : Int) (quantity : Option Int) (r : QuoteResult)
    (h : quoteShares sharesSold quantity = .ok r) : 0 ≤ sharesSold ∧ sharesSold ≤ 48 := by
  constructor
  · by_contra hneg
    rw [quoteShares_negative sharesSold quantity (by omega)] at h
    cases h
  · by_contra h49
    rw [quoteShares_sold_out sharesSold quantity (by omega)] at h
    cases h

/-- The breakdown of a share quote lists increasing share numbers at prices that
do not decrease. -/
theorem quoteShares_breakdown_sorted (sharesSold : Int) (quantity : Option Int)
    (r : QuoteResult) (bd : List PriceLine)
    (h : quoteShares sharesSold quantity = .ok r) (hbd : r.priceBreakdown = some bd) :
    bd.Pairwise (fun x y => x.share < y.share ∧ x.price ≤ y.price) := by
  obtain ⟨h0, h1⟩ := quoteShares_ok_range sharesSold quantity r h
  rw [quoteShares_ok sharesSold quantity h0 h1] at h
  have hr : r = _ := (Except.ok.inj h).symm
  rw [hr] at hbd
  have hbd2 := (Option.some.inj hbd).symm
  rw [hbd2, List.pairwise_map]
  have hle : sharesSold + ((clampShares sharesSold quantity).toNat : Int) ≤ 49 := by
    have : clampShares sharesSold quantity ≤ 49 - sharesSold := by
      simp only [clampShares, MAX_SHARES]; omega
    omega
  refine List.Pairwise.imp_of_mem ?_ (List.pairwise_lt_range _)
  intro i j hi hj hij
  rw [List.mem_range] at hi hj
  constructor
  · show sharesSold + (i : Int) + 1 < sharesSold + (j : Int) + 1
    omega
  · exact price_mono_getD _ _ (by omega) (by omega) (by omega)

/-- C14. For 0 ≤ a ≤ b ≤ 48 both prices are defined and `getCurrentSharePrice(a)
≤ getCurrentSharePrice(b)`; and in the breakdown of every quote that has one the
share numbers increase and the prices do not decrease. -/
theorem price_monotone (a b : Int) (h0 : 0 ≤ a) (hab : a ≤ b) (hb : b ≤ 48) :
    (∃ pa pb, getCurrentSharePrice a = some pa ∧ getCurrentSharePrice b = some pb ∧
      pa ≤ pb) ∧
    (∀ (appDoc : Option AppDoc) (purchaseType : String) (quantity : Option Int)
      (r : QuoteResult) (bd : List PriceLine),
      createCheckoutQuote appDoc purchaseType quantity = .ok r →
      r.priceBreakdown = some bd →
      bd.Pairwise (fun x y => x.share < y.share ∧ x.price ≤ y.price)) := by
  constructor
  · obtain ⟨pa, hpa, _⟩ := price_some a h0 (by omega)
    obtain ⟨pb, hpb, _⟩ := price_some b (by omega) hb
    have hm := price_mono_getD a b h0 hab hb
    rw [hpa, hpb] at hm
    exact ⟨pa, pb, hpa, hpb, hm⟩
  · intro appDoc purchaseType quantity r bd hq hbd
    unfold createCheckoutQuote at hq
    simp only at hq
    split_ifs at hq with hown hfull hpos
    · cases hq
      cases hbd
    · exact quoteShares_breakdown_sorted _ quantity r bd hq hbd

/-- Witness of C14: the prices after 9 and after 10 shares sold, and the
breakdown of a quote for 3 shares after 9 sold. -/
theorem price_monotone_witness :
    (0 : Int) ≤ 9 ∧ (9 : Int) ≤ 10 ∧ (10 : Int) ≤ 48 ∧
    (∃ pa pb, getCurrentSharePrice 9 = some pa ∧ getCurrentSharePrice 10 = some pb ∧
      pa ≤ pb) ∧
    List.Pairwise (fun x y : PriceLine => x.share < y.share ∧ x.price ≤ y.price)
      [{ share := 10, price := 1000 }, { share := 11, price := 2500 },
       { share := 12, price := 2500 }] :=
  ⟨by decide, by decide, by decide,
    (price_monotone 9 10 (by decide) (by decide) (by decide)).1,
    (price_monotone 9 10 (by decide) (by decide) (by decide)).2
      (some { defaultAppData with totalSharesSold := 9 }) "share" (some 3)
      { type := "share", price := 6000, shares := 3,
        priceBreakdown := some [{ share := 10, price := 1000 }, { share := 11, price := 2500 },
          { share := 12, price := 2500 }] }
      _ rfl rfl⟩

/-! ## C15: the share information of an app -/

/-- C15. For an app that has no `apps_revenue` document, `getAppShareInfo`
answers 0 shares sold, 49 remaining, a current price of 1000, full purchase
available and not fully owned, and afterwards the store holds the default record
for the app (total 0, revenue 0, revenue share inactive, not fully owned), the
other documents being unchanged. For an app that has a document the store is
unchanged and the answer has `sharesRemaining = 49 - sharesSold` and
`fullAppPurchaseAvailable` exactly when `sharesSold = 0` and the app is not fully
owned. -/
theorem share_info (db : Store) (appSlug : String) (hslug : appSlug ≠ "") :
    (db.apps_revenue appSlug = none →
      (∃ info, (getAppShareInfo db appSlug).2 = some info ∧
        info.totalSharesSold = 0 ∧ info.sharesRemaining = 49 ∧
        info.currentPricePerShare = some 1000 ∧ info.fullAppPurchaseAvailable = true ∧
        info.isFullyOwned = false) ∧
      (getAppShareInfo db appSlug).1.apps_revenue appSlug =
        some { totalSharesSold := 0, totalRevenue := 0, revenueShareActive := false,
               isFullyOwned := false } ∧
      (∀ slug, slug ≠ appSlug →
        (getAppShareInfo db appSlug).1.apps_revenue slug = db.apps_revenue slug) ∧
      (getAppShareInfo db appSlug).1.shares = db.shares ∧
      (getAppShareInfo db appSlug).1.transactions = db.transactions ∧
      (getAppShareInfo db appSlug).1.payment_issues = db.payment_issues) ∧
    (∀ doc, db.apps_revenue appSlug = some doc →
      (∃ info, (getAppShareInfo db appSlug).2 = some info ∧
        info.totalSharesSold = doc.totalSharesSold ∧
        info.sharesRemaining = 49 - info.totalSharesSold ∧
        info.isFullyOwned = doc.isFullyOwned ∧
        (info.fullAppPurchaseAvailable = true ↔
          info.totalSharesSold = 0 ∧ info.isFullyOwned = false)) ∧
      (getAppShareInfo db appSlug).1 = db) := by
  have hfirst : getCurrentSharePrice 0 = some 1000 := by decide
  constructor
  · intro hnone
    have hget : getAppShareInfo db appSlug =
        ({ db with
            apps_revenue := fun slug =>
              if slug = appSlug then some defaultAppData else db.apps_revenue slug },
         some { appSlug := appSlug, totalSharesSold := 0, sharesRemaining := 49 - 0,
                maxShares := 49, currentPricePerShare := getCurrentSharePrice 0,
                tierInfo := getTierInfo 0,
                fullAppPurchaseAvailable := decide ((0 : Int) = 0) && !false,
                fullAppPrice := FULL_APP_PRICE, isFullyOwned := false,
                revenueShareActive := false, totalRevenue := 0,
                holderCount := ((sharesOfApp
                  { db with
                    apps_revenue := fun slug =>
                      if slug = appSlug then some defaultAppData else db.apps_revenue slug }
                  appSlug).map (fun d => d.userId)).dedup.length }) := by
      unfold getAppShareInfo
      rw [if_neg hslug, hnone]
      rfl
    rw [hget]
    refine ⟨⟨_, rfl, rfl, rfl, hfirst, rfl, rfl⟩, ?_, ?_, rfl, rfl, rfl⟩
    · show (if appSlug = appSlug then some defaultAppData else _) = _
      rw [if_pos rfl]; rfl
    · intro slug hs
      show (if slug = appSlug then some defaultAppData else _) = _
      rw [if_neg hs]
  · intro doc hdoc
    have hget : getAppShareInfo db appSlug =
        (db,
         some { appSlug := appSlug, totalSharesSold := doc.totalSharesSold,
                sharesRemaining := 49 - doc.totalSharesSold,
                maxShares := 49,
                currentPricePerShare := getCurrentSharePrice doc.totalSharesSold,
                tierInfo := getTierInfo doc.totalSharesSold,
                fullAppPurchaseAvailable :=
                  decide (doc.totalSharesSold = 0) && !doc.isFullyOwned,
                fullAppPrice := FULL_APP_PRICE, isFullyOwned := doc.isFullyOwned,
                revenueShareActive := doc.revenueShareActive,
                totalRevenue := doc.totalRevenue,
                holderCount :=
                  ((sharesOfApp db appSlug).map (fun d => d.userId)).dedup.length }) := by
      unfold getAppShareInfo
      rw [if_neg hslug, hdoc]
      rfl
    rw [hget]
    refine ⟨⟨_, rfl, rfl, rfl, rfl, ?_⟩, rfl⟩
    simp

/-- Witness of C15: the first look at the app `app`. -/
theorem share_info_witness :
    "app" ≠ "" ∧ Store.empty.apps_revenue "app" = none ∧
    (getAppShareInfo Store.empty "app").1.apps_revenue "app" =
      some { totalSharesSold := 0, totalRevenue := 0, revenueShareActive := false,
             isFullyOwned := false } :=
  ⟨by decide, rfl, ((share_info Store.empty "app" (by decide)).1 rfl).2.1⟩

/-! ## C16: events that are rejected -/

/-- C16, counterexample. A `checkout.session.completed` event that names its app
and user but has no payment intent (`payment_intent` is `null`), and one that has
an empty session id as well: neither is rejected, both are committed and write a
share document and a transaction. -/
theorem rejection_counterexample :
    (handleStripeWebhook Store.empty 1
      { type := "checkout.session.completed",
        session :=
          { id := "cs_1", payment_intent := none, amount_total := 1000, currency := "usd",
            metadata := some
              { appSlug := "app", appName := "App", userId := "u1", userEmail := "",
                purchaseType := "share", sharesCount := some 1 } } }).2 = .committed ∧
    (handleStripeWebhook Store.empty 1
      { type := "checkout.session.completed",
        session :=
          { id := "", payment_intent := none, amount_total := 1000, currency := "usd",
            metadata := some
              { appSlug := "app", appName := "App", userId := "u1", userEmail := "",
                purchaseType := "share", sharesCount := some 1 } } }).2 = .committed ∧
    (handleStripeWebhook Store.empty 1
      { type := "checkout.session.completed",
        session :=
          { id := "", payment_intent := none, amount_total := 1000, currency := "usd",
            metadata := some
              { appSlug := "app", appName := "App", userId := "u1", userEmail := "",
                purchaseType := "share", sharesCount := some 1 } } }).1.shares.length = 1 ∧
    (handleStripeWebhook Store.empty 1
      { type := "checkout.session.completed",
        session :=
          { id := "", payment_intent := none, amount_total := 1000, currency := "usd",
            metadata := some
              { appSlug := "app", appName := "App", userId := "u1", userEmail := "",
                purchaseType := "share", sharesCount := some 1 } } }).1.transactions.length
      = 1 := by
  decide

/-- C16, amended. A `checkout.session.completed` event is rejected exactly when
its metadata, its `appSlug` or its `userId` is missing; the payment identifiers
are not looked at. A rejected event leaves the app records, the share documents,
the transaction log and the payment issues unchanged. -/
theorem rejection_of_malformed (db : Store) (now : Nat) (event : Event)
    (ht : event.type = "checkout.session.completed") :
    ((handleStripeWebhook db now event).2 = .rejected ↔
      (event.session.metadata = none ∨
        ∃ metadata, event.session.metadata = some metadata ∧
          (metadata.appSlug = "" ∨ metadata.userId = ""))) ∧
    ((handleStripeWebhook db now event).2 = .rejected →
      (handleStripeWebhook db now event).1 = db) := by
  cases hm : event.session.metadata with
  | none => simp [handleStripeWebhook, ht, hm]
  | some metadata =>
    by_cases hr : metadata.appSlug = "" ∨ metadata.userId = ""
    · simp [handleStripeWebhook, ht, hm, hr]
    · have hs : handleStripeWebhook db now event =
          settleTransaction db now event.session metadata := by
        simp [handleStripeWebhook, ht, hm, hr]
      have hnr : (settleTransaction db now event.session metadata).2 ≠ .rejected := by
        by_cases hc : currentSoldOf db metadata.appSlug + numSharesOf metadata > MAX_SHARES
        · rw [settle_oversold db now event.session metadata hc]; simp
        · rw [settle_admitted db now event.session metadata hc]; simp
      rw [hs]
      constructor
      · constructor
        · intro h; exact absurd h hnr
        · rintro (h | ⟨m, hm2, h⟩)
          · cases h
          · cases hm2; exact absurd h hr
      · intro h; exact absurd h hnr

/-- Witness of C16 (amended): an event without a user id. -/
theorem rejection_of_malformed_witness :
    (sampleEvent "cs_1" "app" "" "share" 1 1000).type = "checkout.session.completed" ∧
    (handleStripeWebhook Store.empty 1 (sampleEvent "cs_1" "app" "" "share" 1 1000)).2
      = .rejected :=
  ⟨rfl, (rejection_of_malformed Store.empty 1 (sampleEvent "cs_1" "app" "" "share" 1 1000)
    rfl).1.mpr (Or.inr ⟨_, rfl, Or.inr rfl⟩)⟩

/-! ## C17: settlement of a full purchase of 49 shares -/

/-- An app at 49 shares sold or more keeps its record through every event whose
share count for that app is at least 1. -/
theorem handle_sold_out_stable (db : Store) (now : Nat) (event : Event) (slug : String)
    (h49 : 49 ≤ currentSoldOf db slug)
    (hpos : ∀ m, isSettlementFor event m → m.appSlug = slug → 1 ≤ numSharesOf m) :
    (handleStripeWebhook db now event).1.apps_revenue slug = db.apps_revenue slug := by
  rcases handle_cases db now event with h1 | ⟨metadata, hm, h2⟩
  · rw [h1]
  · rw [h2]
    by_cases hc : currentSoldOf db metadata.appSlug + numSharesOf metadata > MAX_SHARES
    · rw [settle_oversold db now event.session metadata hc]
    · rw [settle_admitted db now event.session metadata hc]
      show (if slug = metadata.appSlug then _ else _) = _
      by_cases hs : slug = metadata.appSlug
      · exfalso
        have hn := hpos metadata hm hs.symm
        rw [← hs] at hc
        simp only [MAX_SHARES] at hc
        omega
      · rw [if_neg hs]

theorem run_sold_out_stable (deliveries : List Delivery) (db : Store) (slug : String)
    (h49 : 49 ≤ currentSoldOf db slug)
    (hpos : ∀ d ∈ deliveries, ∀ m, isSettlementFor d.2 m → m.appSlug = slug →
      1 ≤ numSharesOf m) :
    (runWebhooks db deliveries).apps_revenue slug = db.apps_revenue slug := by
  induction deliveries generalizing db with
  | nil => rfl
  | cons d rest ih =>
    simp only [runWebhooks, List.foldl_cons]
    have hstep := handle_sold_out_stable db d.1 d.2 slug h49
      (hpos d (List.mem_cons_self _ _))
    have h49b : 49 ≤ currentSoldOf (handleStripeWebhook db d.1 d.2).1 slug := by
      unfold currentSoldOf; rw [hstep]; exact h49
    have := ih (handleStripeWebhook db d.1 d.2).1 h49b
      (fun x hx => hpos x (List.mem_cons_of_mem _ hx))
    simp only [runWebhooks] at this
    rw [this, hstep]

/-- C17. For every store with 0 ≤ totalSharesSold ≤ 49 and every settlement event
of type `full` carrying 49 shares, the event is committed exactly when
`totalSharesSold` is 0 and is quarantined otherwise. After the commit the total
is 49 and `isFullyOwned` is true, and every later settlement event for the app
with a share count of at least 1 is quarantined, whatever deliveries came in
between (their share counts for the app being at least 1 too). -/
theorem full_purchase_settlement (db : Store) (now : Nat) (event : Event)
    (metadata : Metadata) (h : isSettlementFor event metadata)
    (hfull : metadata.purchaseType = "full") (h49 : numSharesOf metadata = 49)
    (h0 : 0 ≤ currentSoldOf db metadata.appSlug)
    (h1 : currentSoldOf db metadata.appSlug ≤ 49) :
    ((handleStripeWebhook db now event).2 = .committed ↔
      currentSoldOf db metadata.appSlug = 0) ∧
    (currentSoldOf db metadata.appSlug ≠ 0 →
      (handleStripeWebhook db now event).2 = .quarantined) ∧
    (currentSoldOf db metadata.appSlug = 0 →
      currentSoldOf (handleStripeWebhook db now event).1 metadata.appSlug = 49 ∧
      isFullyOwnedOf (handleStripeWebhook db now event).1 metadata.appSlug = true ∧
      ∀ (later : List Delivery) (now2 : Nat) (e2 : Event) (m2 : Metadata),
        (∀ d ∈ later, ∀ m, isSettlementFor d.2 m → m.appSlug = metadata.appSlug →
          1 ≤ numSharesOf m) →
        isSettlementFor e2 m2 → m2.appSlug = metadata.appSlug → 1 ≤ numSharesOf m2 →
        (handleStripeWebhook (runWebhooks (handleStripeWebhook db now event).1 later)
          now2 e2).2 = .quarantined) := by
  rw [handle_settlement db now event metadata h]
  have hci := settle_committed_iff db now event.session metadata
  have hqi := settle_quarantined_iff db now event.session metadata
  simp only [MAX_SHARES, h49] at hci hqi
  refine ⟨by rw [hci]; omega, fun hne => by rw [hqi]; omega, ?_⟩
  intro hz
  have hadm : ¬ currentSoldOf db metadata.appSlug + numSharesOf metadata > MAX_SHARES := by
    simp only [MAX_SHARES, h49]; omega
  have hsold := settle_admitted_sold db now event.session metadata metadata.appSlug hadm
  have hown := settle_admitted_owned db now event.session metadata metadata.appSlug hadm
  rw [if_pos rfl] at hsold hown
  rw [hz, h49] at hsold
  have hsold49 : currentSoldOf (settleTransaction db now event.session metadata).1
      metadata.appSlug = 49 := by rw [hsold]; rfl
  refine ⟨hsold49, by rw [hown]; simp [hfull], ?_⟩
  intro later now2 e2 m2 hlater he2 happ hn2
  have hstable := run_sold_out_stable later
    (settleTransaction db now event.session metadata).1 metadata.appSlug
    (by rw [hsold49]) hlater
  rw [handle_settlement _ now2 e2 m2 he2, settle_quarantined_iff]
  have hcur : currentSoldOf
      (runWebhooks (settleTransaction db now event.session metadata).1 later) m2.appSlug
      = 49 := by
    rw [happ]
    unfold currentSoldOf
    rw [hstable]
    exact hsold49
  rw [hcur]
  simp only [MAX_SHARES]
  omega

/-- Witness of C17: a full purchase of a new app, then one share asked. -/
theorem full_purchase_settlement_witness :
    isSettlementFor (sampleEvent "cs_1" "app" "u1" "full" 49 100000)
      { appSlug := "app", appName := "app", userId := "u1", userEmail := "",
        purchaseType := "full", sharesCount := some 49 } ∧
    (handleStripeWebhook Store.empty 1
      (sampleEvent "cs_1" "app" "u1" "full" 49 100000)).2 = .committed ∧
    (handleStripeWebhook (runWebhooks (handleStripeWebhook Store.empty 1
      (sampleEvent "cs_1" "app" "u1" "full" 49 100000)).1 []) 2
      (sampleEvent "cs_2" "app" "u2" "share" 1 20000)).2 = .quarantined :=
  ⟨⟨rfl, rfl, by decide, by decide⟩,
    (full_purchase_settlement Store.empty 1 (sampleEvent "cs_1" "app" "u1" "full" 49 100000)
      { appSlug := "app", appName := "app", userId := "u1", userEmail := "",
        purchaseType := "full", sharesCount := some 49 }
      ⟨rfl, rfl, by decide, by decide⟩ rfl rfl (by decide) (by decide)).1.mpr rfl,
    ((full_purchase_settlement Store.empty 1
      (sampleEvent "cs_1" "app" "u1" "full" 49 100000)
      { appSlug := "app", appName := "app", userId := "u1", userEmail := "",
        purchaseType := "full", sharesCount := some 49 }
      ⟨rfl, rfl, by decide, by decide⟩ rfl rfl (by decide) (by decide)).2.2 rfl).2.2
      [] 2 (sampleEvent "cs_2" "app" "u2" "share" 1 20000)
      { appSlug := "app", appName := "app", userId := "u2", userEmail := "",
        purchaseType := "share", sharesCount := some 1 }
      (fun d hd => absurd hd (List.not_mem_nil d))
      ⟨rfl, rfl, by decide, by decide⟩ rfl (by decide)⟩

/-! ## C18: a fresh quote settles -/

/-- C18. For every store, every purchase type and every quantity for which the
checkout quote of an app succeeds with `shares = n`, we have `n ≥ 1` and
`totalSharesSold + n ≤ 49`; a settlement event for that app carrying `n`, settled
against the same store, is committed and not quarantined. -/
theorem fresh_quote_settles (db : Store) (now : Nat) (purchaseType : String)
    (quantity : Option Int) (r : QuoteResult) (event : Event) (metadata : Metadata)
    (hq : createCheckoutQuote (db.apps_revenue metadata.appSlug) purchaseType quantity
      = .ok r)
    (h : isSettlementFor event metadata) (hn : metadata.sharesCount = some r.shares) :
    1 ≤ r.shares ∧ currentSoldOf db metadata.appSlug + r.shares ≤ 49 ∧
    (handleStripeWebhook db now event).2 = .committed ∧
    (handleStripeWebhook db now event).2 ≠ .quarantined := by
  have hbounds : 1 ≤ r.shares ∧ currentSoldOf db metadata.appSlug + r.shares ≤ 49 := by
    unfold createCheckoutQuote at hq
    simp only at hq
    split_ifs at hq with hown hfull hpos
    · have hr : r = _ := (Except.ok.inj hq).symm
      rw [hr]
      simp only [MAX_SHARES, currentSoldOf]
      omega
    · obtain ⟨h0, h1⟩ := quoteShares_ok_range _ quantity r hq
      rw [quoteShares_ok _ quantity h0 h1] at hq
      have hr : r = _ := (Except.ok.inj hq).symm
      rw [hr]
      simp only [clampShares, MAX_SHARES, currentSoldOf] at h0 h1 ⊢
      omega
  have hnum : numSharesOf metadata = r.shares := by
    have hne : r.shares ≠ 0 := by omega
    simp only [numSharesOf, hn, parseIntOr1, if_neg hne]
  have hc : (handleStripeWebhook db now event).2 = .committed := by
    rw [handle_settlement db now event metadata h, settle_committed_iff, hnum]
    simp only [MAX_SHARES]
    omega
  exact ⟨hbounds.1, hbounds.2, hc, by rw [hc]; simp⟩

/-- Witness of C18: five shares quoted for a new app, then settled. -/
theorem fresh_quote_settles_witness :
    createCheckoutQuote (Store.empty.apps_revenue "app") "share" (some 5) =
      .ok { type := "share", price := 5000, shares := 5,
            priceBreakdown := some
              [{ share := 1, price := 1000 }, { share := 2, price := 1000 },
               { share := 3, price := 1000 }, { share := 4, price := 1000 },
               { share := 5, price := 1000 }] } ∧
    (handleStripeWebhook Store.empty 1 (sampleEvent "cs_1" "app" "u1" "share" 5 5000)).2
      = .committed :=
  ⟨rfl,
    (fresh_quote_settles Store.empty 1 "share" (some 5)
      { type := "share", price := 5000, shares := 5,
        priceBreakdown := some
          [{ share := 1, price := 1000 }, { share := 2, price := 1000 },
           { share := 3, price := 1000 }, { share := 4, price := 1000 },
           { share := 5, price := 1000 }] }
      (sampleEvent "cs_1" "app" "u1" "share" 5 5000)
      { appSlug := "app", appName := "app", userId := "u1", userEmail := "",
        purchaseType := "share", sharesCount := some 5 }
      rfl ⟨rfl, rfl, by decide, by decide⟩ rfl).2.2.1⟩

/-! ## C19: the price walk stays on the ladder -/

/-- C19. For 0 ≤ totalSharesSold ≤ 48 and every requested quantity, the price is
defined and not zero at each of the `numShares` steps of the quote loop, the
share quote succeeds, and neither it nor the checkout quote of such a snapshot
fails with "Only i shares available"; with 49 shares sold the share quote fails
with "No shares available". -/
theorem walk_stays_on_ladder (sharesSold : Int) (quantity : Option Int) :
    (0 ≤ sharesSold → sharesSold ≤ 48 →
      (∀ i : Nat, (i : Int) < clampShares sharesSold quantity →
        ∃ p, getCurrentSharePrice (sharesSold + i) = some p ∧ p ≠ 0) ∧
      (∃ r, quoteShares sharesSold quantity = .ok r) ∧
      (∀ i, quoteShares sharesSold quantity ≠ .error (.onlyAvailable i)) ∧
      (∀ (appDoc : Option AppDoc) (purchaseType : String) (i : Nat),
        (appDataOf appDoc).totalSharesSold = sharesSold →
        createCheckoutQuote appDoc purchaseType quantity ≠ .error (.onlyAvailable i))) ∧
    (sharesSold = 49 → quoteShares sharesSold quantity = .error .noSharesAvailable) := by
  constructor
  · intro h0 h1
    have hok := quoteShares_ok sharesSold quantity h0 h1
    refine ⟨?_, ⟨_, hok⟩, ?_, ?_⟩
    · intro i hi
      have hb : clampShares sharesSold quantity ≤ 49 - sharesSold := by
        simp only [clampShares, MAX_SHARES]; omega
      exact price_some (sharesSold + i) (by omega) (by omega)
    · intro i hcontra
      rw [hok] at hcontra
      cases hcontra
    · intro appDoc purchaseType i hsold hcontra
      unfold createCheckoutQuote at hcontra
      simp only at hcontra
      split_ifs at hcontra with hown hfull hpos
      all_goals first
        | cases hcontra
        | (rw [hsold, hok] at hcontra; cases hcontra)
  · intro h49
    exact quoteShares_sold_out sharesSold quantity (by omega)

/-- Witness of C19: 100 shares asked when 45 are sold. -/
theorem walk_stays_on_ladder_witness :
    (0 : Int) ≤ 45 ∧ (45 : Int) ≤ 48 ∧ ∃ r, quoteShares 45 (some 100) = .ok r :=
  ⟨by decide, by decide,
    ((walk_stays_on_ladder 45 (some 100)).1 (by decide) (by decide)).2.1⟩

/-! ## C20: tier information and the price function -/

/-- The tier information in closed form. -/
theorem tier_closed_form (sharesSold : Int) :
    getTierInfo sharesSold =
      if sharesSold < 0 then none
      else if sharesSold ≤ 9 then
        some { tierNumber := 1, pricePerShare := 1000,
               sharesRemainingInTier := 10 - sharesSold, totalTiers := 5 }
      else if sharesSold ≤ 19 then
        some { tierNumber := 2, pricePerShare := 2500,
               sharesRemainingInTier := 20 - sharesSold, totalTiers := 5 }
      else if sharesSold ≤ 29 then
        some { tierNumber := 3, pricePerShare := 5000,
               sharesRemainingInTier := 30 - sharesSold, totalTiers := 5 }
      else if sharesSold ≤ 39 then
        some { tierNumber := 4, pricePerShare := 10000,
               sharesRemainingInTier := 40 - sharesSold, totalTiers := 5 }
      else if sharesSold ≤ 48 then
        some { tierNumber := 5, pricePerShare := 20000,
               sharesRemainingInTier := 49 - sharesSold, totalTiers := 5 }
      else none := by
  simp only [getTierInfo, getTierInfoFrom, PRICING_TIERS, List.length_cons,
    List.length_nil]
  split_ifs <;> first | rfl | omega

/-- C20. For every integer `sharesSold`, `getTierInfo` is `null` exactly when
`getCurrentSharePrice` is; otherwise its `pricePerShare` is the current price,
`1 ≤ tierNumber ≤ 5 = totalTiers`, `1 ≤ sharesRemainingInTier ≤ 10`, the price
stays at `pricePerShare` for the next `sharesRemainingInTier` shares, and the
price after those is `null` or strictly higher. -/
theorem tier_info_agrees (sharesSold : Int) :
    (getTierInfo sharesSold = none ↔ getCurrentSharePrice sharesSold = none) ∧
    (∀ info, getTierInfo sharesSold = some info →
      getCurrentSharePrice sharesSold = some info.pricePerShare ∧
      1 ≤ info.tierNumber ∧ info.tierNumber ≤ 5 ∧ info.totalTiers = 5 ∧
      1 ≤ info.sharesRemainingInTier ∧ info.sharesRemainingInTier ≤ 10 ∧
      (∀ k : Int, 0 ≤ k → k < info.sharesRemainingInTier →
        getCurrentSharePrice (sharesSold + k) = some info.pricePerShare) ∧
      (getCurrentSharePrice (sharesSold + info.sharesRemainingInTier) = none ∨
        ∃ p, getCurrentSharePrice (sharesSold + info.sharesRemainingInTier) = some p ∧
          info.pricePerShare < p)) := by
  by_cases h1 : sharesSold < 0
  · have ht : getTierInfo sharesSold = none := by
      rw [tier_closed_form sharesSold, if_pos h1]
    have hp : getCurrentSharePrice sharesSold = none := by
      rw [price_closed_form sharesSold, if_pos h1]
    rw [ht, hp]
    exact ⟨⟨fun _ => rfl, fun _ => rfl⟩, fun info h => by cases h⟩
  by_cases h7 : 49 ≤ sharesSold
  · have ht : getTierInfo sharesSold = none := by
      rw [tier_closed_form sharesSold]
      split_ifs <;> first | rfl | omega
    have hp : getCurrentSharePrice sharesSold = none := by
      rw [price_closed_form sharesSold]
      split_ifs <;> first | rfl | omega
    rw [ht, hp]
    exact ⟨⟨fun _ => rfl, fun _ => rfl⟩, fun info h => by cases h⟩
  obtain ⟨t, ht, htp, hn1, hn5, htot, hr1, hr10, hrem⟩ :
      ∃ t : TierInfo, getTierInfo sharesSold = some t ∧
        getCurrentSharePrice sharesSold = some t.pricePerShare ∧
        1 ≤ t.tierNumber ∧ t.tierNumber ≤ 5 ∧ t.totalTiers = 5 ∧
        1 ≤ t.sharesRemainingInTier ∧ t.sharesRemainingInTier ≤ 10 ∧
        ((t.pricePerShare = 1000 ∧ sharesSold + t.sharesRemainingInTier = 10) ∨
         (t.pricePerShare = 2500 ∧ sharesSold + t.sharesRemainingInTier = 20) ∨
         (t.pricePerShare = 5000 ∧ sharesSold + t.sharesRemainingInTier = 30) ∨
         (t.pricePerShare = 10000 ∧ sharesSold + t.sharesRemainingInTier = 40) ∨
         (t.pricePerShare = 20000 ∧ sharesSold + t.sharesRemainingInTier = 49 ∧
           40 ≤ sharesSold)) := by
    rw [tier_closed_form sharesSold, price_closed_form sharesSold]
    by_cases h2 : sharesSold ≤ 9
    · rw [if_neg h1, if_pos h2, if_neg h1, if_pos h2]
      refine ⟨(⟨1, 1000, 10 - sharesSold, 5⟩ : TierInfo), rfl, rfl, by norm_num, by norm_num, rfl, ?_, ?_, ?_⟩
      · show 1 ≤ 10 - sharesSold; omega
      · show 10 - sharesSold ≤ 10; omega
      · exact Or.inl ⟨rfl, by show sharesSold + (10 - sharesSold) = 10; omega⟩
    by_cases h3 : sharesSold ≤ 19
    · rw [if_neg h1, if_neg h2, if_pos h3, if_neg h1, if_neg h2, if_pos h3]
      refine ⟨(⟨2, 2500, 20 - sharesSold, 5⟩ : TierInfo), rfl, rfl, by norm_num, by norm_num, rfl, ?_, ?_, ?_⟩
      · show 1 ≤ 20 - sharesSold; omega
      · show 20 - sharesSold ≤ 10; omega
      · exact Or.inr (Or.inl ⟨rfl, by show sharesSold + (20 - sharesSold) = 20; omega⟩)
    by_cases h4 : sharesSold ≤ 29
    · rw [if_neg h1, if_neg h2, if_neg h3, if_pos h4, if_neg h1, if_neg h2, if_neg h3,
        if_pos h4]
      refine ⟨(⟨3, 5000, 30 - sharesSold, 5⟩ : TierInfo), rfl, rfl, by norm_num, by norm_num, rfl, ?_, ?_, ?_⟩
      · show 1 ≤ 30 - sharesSold; omega
      · show 30 - sharesSold ≤ 10; omega
      · exact Or.inr (Or.inr (Or.inl ⟨rfl, by show sharesSold + (30 - sharesSold) = 30; omega⟩))
    by_cases h5 : sharesSold ≤ 39
    · rw [if_neg h1, if_neg h2, if_neg h3, if_neg h4, if_pos h5, if_neg h1, if_neg h2,
        if_neg h3, if_neg h4, if_pos h5]
      exact ⟨(⟨4, 10000, 40 - sharesSold, 5⟩ : TierInfo), rfl, rfl, by norm_num, by norm_num,
        rfl, by show 1 ≤ 40 - sharesSold; omega,
        by show 40 - sharesSold ≤ 10; omega,
        Or.inr (Or.inr (Or.inr (Or.inl
          ⟨rfl, by show sharesSold + (40 - sharesSold) = 40; omega⟩)))⟩
    · have h6 : sharesSold ≤ 48 := by omega
      rw [if_neg h1, if_neg h2, if_neg h3, if_neg h4, if_neg h5, if_pos h6, if_neg h1,
        if_neg h2, if_neg h3, if_neg h4, if_neg h5, if_pos h6]
      exact ⟨(⟨5, 20000, 49 - sharesSold, 5⟩ : TierInfo), rfl, rfl, by norm_num, by norm_num,
        rfl, by show 1 ≤ 49 - sharesSold; omega,
        by show 49 - sharesSold ≤ 10; omega,
        Or.inr (Or.inr (Or.inr (Or.inr
          ⟨rfl, by show sharesSold + (49 - sharesSold) = 49; omega, by omega⟩)))⟩
  rw [ht, htp]
  refine ⟨⟨fun h => (by cases h), fun h => (by cases h)⟩, ?_⟩
  intro info hinfo
  have hi : t = info := Option.some.inj hinfo
  subst hi
  refine ⟨rfl, hn1, hn5, htot, hr1, hr10, ?_, ?_⟩
  · intro k hk0 hk1
    rw [price_closed_form (sharesSold + k)]
    rcases hrem with ⟨hp, hs⟩ | ⟨hp, hs⟩ | ⟨hp, hs⟩ | ⟨hp, hs⟩ | ⟨hp, hs, h40⟩ <;>
      rw [hp] <;> split_ifs <;> first | rfl | omega
  · rcases hrem with ⟨hp, hs⟩ | ⟨hp, hs⟩ | ⟨hp, hs⟩ | ⟨hp, hs⟩ | ⟨hp, hs, h40⟩
    · right; rw [hs, hp]; exact ⟨2500, by decide, by decide⟩
    · right; rw [hs, hp]; exact ⟨5000, by decide, by decide⟩
    · right; rw [hs, hp]; exact ⟨10000, by decide, by decide⟩
    · right; rw [hs, hp]; exact ⟨20000, by decide, by decide⟩
    · left; rw [hs]; decide

/-- Witness of C20: the tier information after 17 shares sold. -/
theorem tier_info_agrees_witness :
    getTierInfo 17 = some { tierNumber := 2, pricePerShare := 2500,
                            sharesRemainingInTier := 3, totalTiers := 5 } ∧
    getCurrentSharePrice 17 = some 2500 :=
  ⟨by decide,
    ((tier_info_agrees 17).2
      { tierNumber := 2, pricePerShare := 2500, sharesRemainingInTier := 3,
        totalTiers := 5 } (by decide)).1⟩

end TheRobots
